import Mathlib

/-!
Verification of the RFC 8628 device-authorization flow client of
`src/server/src/cli/device-flow.ts`.

The flow is shallowly embedded as a pure function.  Time is an explicit
millisecond clock starting at 0 at the instant `expiresAt` is computed
(line 77 of the source); `sleep(interval)` advances the clock by
`interval * 1000` and every network poll additionally advances it by an
arbitrary caller-chosen delay.  Each poll of the token endpoint is answered
by one element of a list of `PollEvent`s: either a parsed
`DeviceTokenResponse` (2xx or 400; the source parses JSON for both) or a
thrown transport error carrying a message.  Callbacks are modelled by their
only behaviour observable to the flow: whether a given invocation throws,
and with what message.  Every externally visible effect (the single code
request, the `onCodeReceived` and `onPolling` invocations, each poll
request with the time it was issued and the interval slept before it, and
each credential save) is recorded in an `Action` trace in program order.
If the event list is exhausted while the loop still wants to poll, the run
is undetermined and the model returns `none`.
-/

namespace DeviceFlow

/-- The grant returned by the device-code endpoint
(`DeviceCodeResponse` in the source). -/
structure DeviceCodeResponse where
  device_code : String
  user_code : String
  verification_uri : String
  expires_in : Nat
  interval : Nat
  deriving Repr, DecidableEq

/-- A parsed token-endpoint response (`DeviceTokenResponse` in the source).
All fields are optional in the wire format. -/
structure DeviceTokenResponse where
  error : Option String := none
  api_key : Option String := none
  key_prefix : Option String := none
  user_id : Option String := none
  email : Option String := none
  provider : Option String := none
  deriving Repr, DecidableEq

/-- The terminal value of the flow (`DeviceAuthResult` in the source). -/
structure DeviceAuthResult where
  success : Bool
  apiKey : Option String := none
  keyPrefix : Option String := none
  userId : Option String := none
  email : Option String := none
  provider : Option String := none
  error : Option String := none
  deriving Repr, DecidableEq

/-- The credential record handed to the credential store on success
(lines 111-116 of the source). `createdAt` is the clock value at the
moment the record is built. -/
structure Credential where
  apiKey : String
  email : Option String := none
  provider : Option String := none
  createdAt : Nat
  deriving Repr, DecidableEq

/-- JavaScript truthiness of an optional string field: `undefined` and the
empty string are falsy, every other string is truthy.  This is the test the
source applies to `tokenResponse.error` (line 89) and
`tokenResponse.api_key` (line 108). -/
def truthy : Option String → Bool
  | none => false
  | some s => decide (s ≠ "")

/-- One answer of the token endpoint to one poll request: either a parsed
response (HTTP 2xx or 400), or `pollForToken` throwing (any other status or
a transport failure).  `delay` is the wall-clock time in ms the network
round trip took. -/
inductive PollEvent where
  | resp (delay : Nat) (r : DeviceTokenResponse)
  | exn (delay : Nat) (msg : String)
  deriving Repr, DecidableEq

/-- Externally visible effects of one flow, in program order. -/
inductive Action where
  | codeRequest
  | codeReceived (userCode : String) (verificationUri : String)
  | pollingCb
  | pollSent (t : Nat) (interval : Nat)
  | save (c : Credential)
  deriving Repr, DecidableEq

/-- How the `while` loop of `executeDeviceFlow` ends: a `return` from inside
the `try` block, or an exception propagating to the `catch` on line 132. -/
inductive LoopExit where
  | result (r : DeviceAuthResult)
  | thrown (msg : String)
  deriving Repr, DecidableEq

/-- The result returned on `expired_token` and when the deadline elapses
(source lines 99 and 131). -/
def expiredResult : DeviceAuthResult :=
  { success := false, error := some "Device code expired. Please try again." }

/-- The result returned on `access_denied` (source line 101). -/
def deniedResult : DeviceAuthResult :=
  { success := false, error := some "Authorization denied by user." }

/-- The result returned on an unrecognized protocol error code
(source line 103). -/
def unknownResult (s : String) : DeviceAuthResult :=
  { success := false, error := some ("Unknown error: " ++ s) }

/-- The success result built from the final token response
(source lines 120-127). -/
def successResult (r : DeviceTokenResponse) : DeviceAuthResult :=
  { success := true, apiKey := r.api_key, keyPrefix := r.key_prefix,
    userId := r.user_id, email := r.email, provider := r.provider }

/-- The credential record built on success (source lines 111-116); `now2` is
the clock value at that moment. -/
def builtCredential (r : DeviceTokenResponse) (now2 : Nat) : Credential :=
  { apiKey := r.api_key.getD "", email := r.email, provider := r.provider,
    createdAt := now2 }

/-- The failure result produced by the `catch` clause of the orchestrator
(source lines 132-135). -/
def caughtResult (m : String) : DeviceAuthResult :=
  { success := false, error := some m }

/-- The polling loop of `executeDeviceFlow` (source lines 80-131).  Arguments
track the mutable state of the loop, in order: the clock `now`, the number
`k` of `onPolling` invocations so far (the callback behaviour `onPolling` is
indexed by invocation) and the current `interval` in seconds.  One
`PollEvent` is consumed per poll request; the three equations are the loop
body case-split on the shape of the next event (none available, transport
failure, parsed response), each repeating the `while` guard of line 80 and
the `onPolling` guard of lines 83-85. -/
def pollLoop (shouldSave : Bool) (onPolling : Option (Nat → Option String))
    (expiresAt : Nat) :
    Nat → Nat → Nat → List PollEvent → Option LoopExit × List Action
  | now, k, _, [] =>
    if now < expiresAt then
      let cbActs : List Action :=
        match onPolling with
        | some _ => [Action.pollingCb]
        | none => []
      let cbThrow : Option String :=
        match onPolling with
        | some cb => cb k
        | none => none
      match cbThrow with
      | some m => (some (LoopExit.thrown m), cbActs)
      | none => (none, cbActs)
    else
      (some (LoopExit.result expiredResult), [])
  | now, k, interval, PollEvent.exn _ m :: _ =>
    if now < expiresAt then
      let cbActs : List Action :=
        match onPolling with
        | some _ => [Action.pollingCb]
        | none => []
      let cbThrow : Option String :=
        match onPolling with
        | some cb => cb k
        | none => none
      match cbThrow with
      | some m2 => (some (LoopExit.thrown m2), cbActs)
      | none =>
          (some (LoopExit.thrown m),
           cbActs ++ [Action.pollSent (now + interval * 1000) interval])
    else
      (some (LoopExit.result expiredResult), [])
  | now, k, interval, PollEvent.resp d r :: rest =>
    if now < expiresAt then
      let now1 := now + interval * 1000
      let now2 := now1 + d
      let cbActs : List Action :=
        match onPolling with
        | some _ => [Action.pollingCb]
        | none => []
      let cbThrow : Option String :=
        match onPolling with
        | some cb => cb k
        | none => none
      match cbThrow with
      | some m => (some (LoopExit.thrown m), cbActs)
      | none =>
        let issued := cbActs ++ [Action.pollSent now1 interval]
        if truthy r.error then
          let s := r.error.getD ""
          if s = "authorization_pending" then
            let p := pollLoop shouldSave onPolling expiresAt now2 (k + 1) interval rest
            (p.1, issued ++ p.2)
          else if s = "slow_down" then
            let p := pollLoop shouldSave onPolling expiresAt now2 (k + 1) (interval + 5) rest
            (p.1, issued ++ p.2)
          else if s = "expired_token" then
            (some (LoopExit.result expiredResult), issued)
          else if s = "access_denied" then
            (some (LoopExit.result deniedResult), issued)
          else
            (some (LoopExit.result (unknownResult s)), issued)
        else if truthy r.api_key then
          let saveActs : List Action :=
            if shouldSave then [Action.save (builtCredential r now2)] else []
          (some (LoopExit.result (successResult r)), issued ++ saveActs)
        else
          let p := pollLoop shouldSave onPolling expiresAt now2 (k + 1) interval rest
          (p.1, issued ++ p.2)
    else
      (some (LoopExit.result expiredResult), [])

/-- An HTTP response of the device-code endpoint as seen by
`requestDeviceCode`: the `ok` flag, the JSON body when `ok`, and the raw
body text. -/
structure HttpCodeResponse where
  ok : Bool
  json : DeviceCodeResponse
  text : String

/-- `requestDeviceCode` (source lines 16-29): on a non-ok status it throws an
error wrapping the response body; otherwise it returns the parsed grant. -/
def requestDeviceCode (r : HttpCodeResponse) : Except String DeviceCodeResponse :=
  if r.ok then Except.ok r.json
  else Except.error ("Failed to request device code: " ++ r.text)

/-- What the single `fetch` of the device-code endpoint did: either an HTTP
response reached `requestDeviceCode`, or the fetch itself threw. -/
inductive CodeRequestOutcome where
  | http (r : HttpCodeResponse)
  | netError (msg : String)

/-- `DeviceFlowOptions` (destructured on source line 67).  The two callbacks
are modelled by their throw behaviour: `none` means the invocation returns
normally, `some m` means it throws an error with message `m`; `onPolling`
is optional and indexed by invocation count.  `saveCredentials` is optional
with default `true`, as in `saveCredentials: shouldSave = true`. -/
structure DeviceFlowOptions where
  onCodeReceived : Option String := none
  onPolling : Option (Nat → Option String) := none
  saveCredentials : Option Bool := none

/-- `executeDeviceFlow` (source lines 64-136): request a code, invoke
`onCodeReceived`, run the polling loop, map a propagated exception to a
failure result at the `catch` boundary. -/
def executeDeviceFlow (options : DeviceFlowOptions) (codeReq : CodeRequestOutcome)
    (events : List PollEvent) : Option DeviceAuthResult × List Action :=
  let shouldSave := options.saveCredentials.getD true
  match codeReq with
  | CodeRequestOutcome.netError m =>
      (some (caughtResult m), [Action.codeRequest])
  | CodeRequestOutcome.http hr =>
      match requestDeviceCode hr with
      | Except.error m =>
          (some (caughtResult m), [Action.codeRequest])
      | Except.ok g =>
          match options.onCodeReceived with
          | some m =>
              (some (caughtResult m),
               [Action.codeRequest, Action.codeReceived g.user_code g.verification_uri])
          | none =>
              let expiresAt := g.expires_in * 1000
              let p := pollLoop shouldSave options.onPolling expiresAt 0 0 g.interval events
              let acts := Action.codeRequest ::
                Action.codeReceived g.user_code g.verification_uri :: p.2
              match p.1 with
              | none => (none, acts)
              | some (LoopExit.result r) => (some r, acts)
              | some (LoopExit.thrown m) =>
                  (some (caughtResult m), acts)

/-- The polling loop with a fallible credential store.  The
`saveCredentials(credentials)` call of source line 117 is a synchronous
filesystem write (`config.ts` lines 71-74) that can itself throw; it sits
inside the `try` block, so its error propagates to the catch of line 132.
`saveThrow` is that call's behaviour: `none` when it returns normally,
`some m` when it throws an error with message `m`.  The store is invoked
(the save action is recorded) before the throw interrupts the success
return of lines 120-127.  Everywhere else this is `pollLoop` verbatim, and
`pollLoop` is exactly this loop at `saveThrow := none`
(`pollLoopSave_none_eq` below). -/
def pollLoopSave (shouldSave : Bool) (saveThrow : Option String)
    (onPolling : Option (Nat → Option String)) (expiresAt : Nat) :
    Nat → Nat → Nat → List PollEvent → Option LoopExit × List Action
  | now, k, _, [] =>
    if now < expiresAt then
      let cbActs : List Action :=
        match onPolling with
        | some _ => [Action.pollingCb]
        | none => []
      let cbThrow : Option String :=
        match onPolling with
        | some cb => cb k
        | none => none
      match cbThrow with
      | some m => (some (LoopExit.thrown m), cbActs)
      | none => (none, cbActs)
    else
      (some (LoopExit.result expiredResult), [])
  | now, k, interval, PollEvent.exn _ m :: _ =>
    if now < expiresAt then
      let cbActs : List Action :=
        match onPolling with
        | some _ => [Action.pollingCb]
        | none => []
      let cbThrow : Option String :=
        match onPolling with
        | some cb => cb k
        | none => none
      match cbThrow with
      | some m2 => (some (LoopExit.thrown m2), cbActs)
      | none =>
          (some (LoopExit.thrown m),
           cbActs ++ [Action.pollSent (now + interval * 1000) interval])
    else
      (some (LoopExit.result expiredResult), [])
  | now, k, interval, PollEvent.resp d r :: rest =>
    if now < expiresAt then
      let now1 := now + interval * 1000
      let now2 := now1 + d
      let cbActs : List Action :=
        match onPolling with
        | some _ => [Action.pollingCb]
        | none => []
      let cbThrow : Option String :=
        match onPolling with
        | some cb => cb k
        | none => none
      match cbThrow with
      | some m => (some (LoopExit.thrown m), cbActs)
      | none =>
        let issued := cbActs ++ [Action.pollSent now1 interval]
        if truthy r.error then
          let s := r.error.getD ""
          if s = "authorization_pending" then
            let p := pollLoopSave shouldSave saveThrow onPolling expiresAt
              now2 (k + 1) interval rest
            (p.1, issued ++ p.2)
          else if s = "slow_down" then
            let p := pollLoopSave shouldSave saveThrow onPolling expiresAt
              now2 (k + 1) (interval + 5) rest
            (p.1, issued ++ p.2)
          else if s = "expired_token" then
            (some (LoopExit.result expiredResult), issued)
          else if s = "access_denied" then
            (some (LoopExit.result deniedResult), issued)
          else
            (some (LoopExit.result (unknownResult s)), issued)
        else if truthy r.api_key then
          if shouldSave then
            match saveThrow with
            | some m =>
                (some (LoopExit.thrown m),
                 issued ++ [Action.save (builtCredential r now2)])
            | none =>
                (some (LoopExit.result (successResult r)),
                 issued ++ [Action.save (builtCredential r now2)])
          else
            (some (LoopExit.result (successResult r)), issued)
        else
          let p := pollLoopSave shouldSave saveThrow onPolling expiresAt
            now2 (k + 1) interval rest
          (p.1, issued ++ p.2)
    else
      (some (LoopExit.result expiredResult), [])

/-- `executeDeviceFlow` over the fallible-store loop: identical to
`executeDeviceFlow` except that the polling loop is `pollLoopSave`, so a
throwing `saveCredentials` reaches the catch of lines 132-135 like every
other error.  At `saveThrow := none` this is `executeDeviceFlow` exactly
(`executeDeviceFlowSave_none_eq` below). -/
def executeDeviceFlowSave (saveThrow : Option String)
    (options : DeviceFlowOptions) (codeReq : CodeRequestOutcome)
    (events : List PollEvent) : Option DeviceAuthResult × List Action :=
  let shouldSave := options.saveCredentials.getD true
  match codeReq with
  | CodeRequestOutcome.netError m =>
      (some (caughtResult m), [Action.codeRequest])
  | CodeRequestOutcome.http hr =>
      match requestDeviceCode hr with
      | Except.error m =>
          (some (caughtResult m), [Action.codeRequest])
      | Except.ok g =>
          match options.onCodeReceived with
          | some m =>
              (some (caughtResult m),
               [Action.codeRequest, Action.codeReceived g.user_code g.verification_uri])
          | none =>
              let expiresAt := g.expires_in * 1000
              let p := pollLoopSave shouldSave saveThrow options.onPolling
                expiresAt 0 0 g.interval events
              let acts := Action.codeRequest ::
                Action.codeReceived g.user_code g.verification_uri :: p.2
              match p.1 with
              | none => (none, acts)
              | some (LoopExit.result r) => (some r, acts)
              | some (LoopExit.thrown m) =>
                  (some (caughtResult m), acts)

/-- Times at which poll requests were issued, in order. -/
def pollTimes : List Action → List Nat
  | [] => []
  | Action.pollSent t _ :: tr => t :: pollTimes tr
  | _ :: tr => pollTimes tr

/-- Interval slept before each poll request, in order. -/
def pollIntervals : List Action → List Nat
  | [] => []
  | Action.pollSent _ i :: tr => i :: pollIntervals tr
  | _ :: tr => pollIntervals tr

/-- Credentials handed to the credential store, in order. -/
def savesOf : List Action → List Credential
  | [] => []
  | Action.save c :: tr => c :: savesOf tr
  | _ :: tr => savesOf tr

/-- Number of `onCodeReceived` invocations recorded in a trace. -/
def codeReceivedCount : List Action → Nat
  | [] => 0
  | Action.codeReceived _ _ :: tr => codeReceivedCount tr + 1
  | _ :: tr => codeReceivedCount tr

/-- Every poll request in the trace is immediately preceded by an
`onPolling` invocation. -/
def pollsPreceded : List Action → Bool
  | [] => true
  | Action.pollingCb :: Action.pollSent _ _ :: rest => pollsPreceded rest
  | Action.pollSent _ _ :: _ => false
  | _ :: rest => pollsPreceded rest

/-- Number of code requests recorded in a trace. -/
def codeRequestCount : List Action → Nat
  | [] => 0
  | Action.codeRequest :: tr => codeRequestCount tr + 1
  | _ :: tr => codeRequestCount tr

/-- The actions emitted by the `if (onPolling) onPolling()` guard of one
loop iteration (source lines 83-85). -/
def notifyActs : Option (Nat → Option String) → List Action
  | some _ => [Action.pollingCb]
  | none => []

/-- The onPolling behaviour never throws. -/
def cbSilent : Option (Nat → Option String) → Prop
  | none => True
  | some cb => ∀ k, cb k = none

/-- What the `onPolling` guard observes at invocation `k`: `none` when the
callback is absent or returns normally, `some m` when it throws `m`. -/
def cbAt (cb : Option (Nat → Option String)) (k : Nat) : Option String :=
  match cb with
  | some f => f k
  | none => none

/-- A poll event that the loop treats as non-terminal: a parsed response
whose error is `authorization_pending` or `slow_down`, or one with neither
a truthy error nor a truthy `api_key`. -/
def isNonTerminalEvent : PollEvent → Bool
  | PollEvent.resp _ r =>
      if truthy r.error then
        decide (r.error.getD "" = "authorization_pending") ||
          decide (r.error.getD "" = "slow_down")
      else !truthy r.api_key
  | PollEvent.exn _ _ => false

/-- A pending poll event. -/
def isPendingEvent : PollEvent → Bool
  | PollEvent.resp _ r => decide (r.error = some "authorization_pending")
  | PollEvent.exn _ _ => false

/-- Clock value after one loop iteration that consumed event `e`. -/
def stepTime (now interval : Nat) (e : PollEvent) : Nat :=
  match e with
  | PollEvent.resp d _ => now + interval * 1000 + d
  | PollEvent.exn d _ => now + interval * 1000 + d

/-- Interval after one loop iteration that consumed event `e`. -/
def stepInterval (interval : Nat) (e : PollEvent) : Nat :=
  match e with
  | PollEvent.resp _ r =>
      if truthy r.error then
        if r.error.getD "" = "slow_down" then interval + 5 else interval
      else interval
  | PollEvent.exn _ _ => interval

/-- Every iteration that consumes one of the listed events starts strictly
before the deadline (the `while` condition of line 80 holds each time). -/
def checksPass (expiresAt : Nat) : Nat → Nat → List PollEvent → Bool
  | _, _, [] => true
  | now, interval, e :: rest =>
      decide (now < expiresAt) &&
        checksPass expiresAt (stepTime now interval e) (stepInterval interval e) rest

/-! ## Trace bookkeeping -/

theorem pollTimes_append (l1 l2 : List Action) :
    pollTimes (l1 ++ l2) = pollTimes l1 ++ pollTimes l2 := by
  induction l1 with
  | nil => simp [pollTimes]
  | cons a tr ih => cases a <;> simp [pollTimes, ih]

theorem pollIntervals_append (l1 l2 : List Action) :
    pollIntervals (l1 ++ l2) = pollIntervals l1 ++ pollIntervals l2 := by
  induction l1 with
  | nil => simp [pollIntervals]
  | cons a tr ih => cases a <;> simp [pollIntervals, ih]

theorem savesOf_append (l1 l2 : List Action) :
    savesOf (l1 ++ l2) = savesOf l1 ++ savesOf l2 := by
  induction l1 with
  | nil => simp [savesOf]
  | cons a tr ih => cases a <;> simp [savesOf, ih]

theorem codeReceivedCount_append (l1 l2 : List Action) :
    codeReceivedCount (l1 ++ l2) = codeReceivedCount l1 + codeReceivedCount l2 := by
  induction l1 with
  | nil => simp [codeReceivedCount]
  | cons a tr ih => (cases a <;> simp [codeReceivedCount, ih]); omega

theorem codeRequestCount_append (l1 l2 : List Action) :
    codeRequestCount (l1 ++ l2) = codeRequestCount l1 + codeRequestCount l2 := by
  induction l1 with
  | nil => simp [codeRequestCount]
  | cons a tr ih => (cases a <;> simp [codeRequestCount, ih]); omega

/-! ## Single-step characterization of the polling loop -/

/-- Once a wait-then-poll cycle starts at or after the deadline, the loop
returns the expired result at once, emitting no action at all. -/
theorem pollLoop_deadline (s : Bool) (cb : Option (Nat → Option String))
    (expAt now k interval : Nat) (events : List PollEvent)
    (h : expAt ≤ now) :
    pollLoop s cb expAt now k interval events =
      (some (LoopExit.result expiredResult), []) := by
  cases events with
  | nil => rw [pollLoop.eq_def]; simp [Nat.not_lt.mpr h]
  | cons e rest =>
      cases e with
      | exn dl m => rw [pollLoop.eq_def]; simp [Nat.not_lt.mpr h]
      | resp d r => rw [pollLoop.eq_def]; simp [Nat.not_lt.mpr h]

/-- An `authorization_pending` response keeps polling with the same
interval. -/
theorem pollLoop_pending_step (s : Bool) (cb : Option (Nat → Option String))
    (expAt now k interval d : Nat) (r : DeviceTokenResponse) (rest : List PollEvent)
    (hnow : now < expAt) (hcb : cbAt cb k = none)
    (hr : r.error = some "authorization_pending") :
    pollLoop s cb expAt now k interval (PollEvent.resp d r :: rest) =
      ((pollLoop s cb expAt (now + interval * 1000 + d) (k + 1) interval rest).1,
       notifyActs cb ++ Action.pollSent (now + interval * 1000) interval ::
         (pollLoop s cb expAt (now + interval * 1000 + d) (k + 1) interval rest).2) := by
  cases cb with
  | none =>
      rw [pollLoop.eq_def]
      simp [hnow, hr, truthy, notifyActs]
  | some f =>
      simp only [cbAt] at hcb
      rw [pollLoop.eq_def]
      simp [hnow, hcb, hr, truthy, notifyActs]

/-- A `slow_down` response increments the interval by exactly 5 seconds and
keeps polling with the incremented interval. -/
theorem pollLoop_slowdown_step (s : Bool) (cb : Option (Nat → Option String))
    (expAt now k interval d : Nat) (r : DeviceTokenResponse) (rest : List PollEvent)
    (hnow : now < expAt) (hcb : cbAt cb k = none)
    (hr : r.error = some "slow_down") :
    pollLoop s cb expAt now k interval (PollEvent.resp d r :: rest) =
      ((pollLoop s cb expAt (now + interval * 1000 + d) (k + 1) (interval + 5) rest).1,
       notifyActs cb ++ Action.pollSent (now + interval * 1000) interval ::
         (pollLoop s cb expAt (now + interval * 1000 + d) (k + 1) (interval + 5) rest).2) := by
  cases cb with
  | none =>
      rw [pollLoop.eq_def]
      simp [hnow, hr, truthy, notifyActs]
  | some f =>
      simp only [cbAt] at hcb
      rw [pollLoop.eq_def]
      simp [hnow, hcb, hr, truthy, notifyActs]

/-- A response with neither a truthy error nor a truthy `api_key` keeps
polling with the interval unchanged. -/
theorem pollLoop_continue_step (s : Bool) (cb : Option (Nat → Option String))
    (expAt now k interval d : Nat) (r : DeviceTokenResponse) (rest : List PollEvent)
    (hnow : now < expAt) (hcb : cbAt cb k = none)
    (he : truthy r.error = false) (hk : truthy r.api_key = false) :
    pollLoop s cb expAt now k interval (PollEvent.resp d r :: rest) =
      ((pollLoop s cb expAt (now + interval * 1000 + d) (k + 1) interval rest).1,
       notifyActs cb ++ Action.pollSent (now + interval * 1000) interval ::
         (pollLoop s cb expAt (now + interval * 1000 + d) (k + 1) interval rest).2) := by
  cases cb with
  | none =>
      rw [pollLoop.eq_def]
      simp [hnow, he, hk, notifyActs]
  | some f =>
      simp only [cbAt] at hcb
      rw [pollLoop.eq_def]
      simp [hnow, hcb, he, hk, notifyActs]

/-- An `expired_token` response terminates at once with the expired result,
issuing exactly the one poll that received it. -/
theorem pollLoop_expired_step (s : Bool) (cb : Option (Nat → Option String))
    (expAt now k interval d : Nat) (r : DeviceTokenResponse) (rest : List PollEvent)
    (hnow : now < expAt) (hcb : cbAt cb k = none)
    (hr : r.error = some "expired_token") :
    pollLoop s cb expAt now k interval (PollEvent.resp d r :: rest) =
      (some (LoopExit.result expiredResult),
       notifyActs cb ++ [Action.pollSent (now + interval * 1000) interval]) := by
  cases cb with
  | none =>
      rw [pollLoop.eq_def]
      simp [hnow, hr, truthy, notifyActs]
  | some f =>
      simp only [cbAt] at hcb
      rw [pollLoop.eq_def]
      simp [hnow, hcb, hr, truthy, notifyActs]

/-- An `access_denied` response terminates at once with the denied result,
issuing exactly the one poll that received it. -/
theorem pollLoop_denied_step (s : Bool) (cb : Option (Nat → Option String))
    (expAt now k interval d : Nat) (r : DeviceTokenResponse) (rest : List PollEvent)
    (hnow : now < expAt) (hcb : cbAt cb k = none)
    (hr : r.error = some "access_denied") :
    pollLoop s cb expAt now k interval (PollEvent.resp d r :: rest) =
      (some (LoopExit.result deniedResult),
       notifyActs cb ++ [Action.pollSent (now + interval * 1000) interval]) := by
  cases cb with
  | none =>
      rw [pollLoop.eq_def]
      simp [hnow, hr, truthy, notifyActs]
  | some f =>
      simp only [cbAt] at hcb
      rw [pollLoop.eq_def]
      simp [hnow, hcb, hr, truthy, notifyActs]

/-- Any other truthy error code terminates at once with the unknown-error
result carrying the raw code, issuing exactly the one poll that received
it. -/
theorem pollLoop_unknown_step (s : Bool) (cb : Option (Nat → Option String))
    (expAt now k interval d : Nat) (code : String) (r : DeviceTokenResponse)
    (rest : List PollEvent)
    (hnow : now < expAt) (hcb : cbAt cb k = none)
    (hr : r.error = some code) (h0 : code ≠ "")
    (h1 : code ≠ "authorization_pending") (h2 : code ≠ "slow_down")
    (h3 : code ≠ "expired_token") (h4 : code ≠ "access_denied") :
    pollLoop s cb expAt now k interval (PollEvent.resp d r :: rest) =
      (some (LoopExit.result (unknownResult code)),
       notifyActs cb ++ [Action.pollSent (now + interval * 1000) interval]) := by
  cases cb with
  | none =>
      rw [pollLoop.eq_def]
      simp [hnow, hr, h0, h1, h2, h3, h4, truthy, notifyActs]
  | some f =>
      simp only [cbAt] at hcb
      rw [pollLoop.eq_def]
      simp [hnow, hcb, hr, h0, h1, h2, h3, h4, truthy, notifyActs]

/-- A response with no truthy error and a truthy `api_key` terminates with
the success result; the credential, stamped with the clock value at that
moment, is saved exactly when `shouldSave` is set. -/
theorem pollLoop_success_step (s : Bool) (cb : Option (Nat → Option String))
    (expAt now k interval d : Nat) (r : DeviceTokenResponse) (rest : List PollEvent)
    (hnow : now < expAt) (hcb : cbAt cb k = none)
    (he : truthy r.error = false) (hk : truthy r.api_key = true) :
    pollLoop s cb expAt now k interval (PollEvent.resp d r :: rest) =
      (some (LoopExit.result (successResult r)),
       notifyActs cb ++ Action.pollSent (now + interval * 1000) interval ::
         (if s then [Action.save (builtCredential r (now + interval * 1000 + d))]
          else [])) := by
  cases cb with
  | none =>
      rw [pollLoop.eq_def]
      cases s <;> simp [hnow, he, hk, notifyActs]
  | some f =>
      simp only [cbAt] at hcb
      rw [pollLoop.eq_def]
      cases s <;> simp [hnow, hcb, he, hk, notifyActs]

/-- A transport failure of `pollForToken` propagates as a thrown error after
the poll that failed. -/
theorem pollLoop_exn_step (s : Bool) (cb : Option (Nat → Option String))
    (expAt now k interval d : Nat) (m : String) (rest : List PollEvent)
    (hnow : now < expAt) (hcb : cbAt cb k = none) :
    pollLoop s cb expAt now k interval (PollEvent.exn d m :: rest) =
      (some (LoopExit.thrown m),
       notifyActs cb ++ [Action.pollSent (now + interval * 1000) interval]) := by
  cases cb with
  | none =>
      rw [pollLoop.eq_def]
      simp [hnow, notifyActs]
  | some f =>
      simp only [cbAt] at hcb
      rw [pollLoop.eq_def]
      simp [hnow, hcb, notifyActs]

/-- A throwing `onPolling` invocation aborts the iteration before the poll
is issued. -/
theorem pollLoop_cbThrow_step (s : Bool) (f : Nat → Option String)
    (expAt now k interval : Nat) (m : String) (events : List PollEvent)
    (hnow : now < expAt) (hf : f k = some m) :
    pollLoop s (some f) expAt now k interval events =
      (some (LoopExit.thrown m), [Action.pollingCb]) := by
  cases events with
  | nil => rw [pollLoop.eq_def]; simp [hnow, hf]
  | cons e rest =>
      cases e with
      | exn dl m2 => rw [pollLoop.eq_def]; simp [hnow, hf]
      | resp d r => rw [pollLoop.eq_def]; simp [hnow, hf]

/-- Exhausting the event list mid-loop leaves the run undetermined. -/
theorem pollLoop_nil_none (s : Bool) (cb : Option (Nat → Option String))
    (expAt now k interval : Nat)
    (hnow : now < expAt) (hcb : cbAt cb k = none) :
    pollLoop s cb expAt now k interval [] = (none, notifyActs cb) := by
  cases cb with
  | none => rw [pollLoop.eq_def]; simp [hnow, notifyActs]
  | some f =>
      simp only [cbAt] at hcb
      rw [pollLoop.eq_def]
      simp [hnow, hcb, notifyActs]

theorem pollIntervals_notify (cb : Option (Nat → Option String)) :
    pollIntervals (notifyActs cb) = [] := by
  cases cb <;> simp [notifyActs, pollIntervals]

theorem pollTimes_notify (cb : Option (Nat → Option String)) :
    pollTimes (notifyActs cb) = [] := by
  cases cb <;> simp [notifyActs, pollTimes]

theorem savesOf_notify (cb : Option (Nat → Option String)) :
    savesOf (notifyActs cb) = [] := by
  cases cb <;> simp [notifyActs, savesOf]

theorem codeReceivedCount_notify (cb : Option (Nat → Option String)) :
    codeReceivedCount (notifyActs cb) = 0 := by
  cases cb <;> simp [notifyActs, codeReceivedCount]

theorem codeRequestCount_notify (cb : Option (Nat → Option String)) :
    codeRequestCount (notifyActs cb) = 0 := by
  cases cb <;> simp [notifyActs, codeRequestCount]

theorem cbSilent_at (cb : Option (Nat → Option String)) (k : Nat)
    (h : cbSilent cb) : cbAt cb k = none := by
  cases cb with
  | none => rfl
  | some f => exact h k

theorem chain_le_of_le {a b : Nat} {l : List Nat} (hab : a ≤ b)
    (h : List.Chain (· ≤ ·) b l) : List.Chain (· ≤ ·) a l := by
  cases h with
  | nil => exact List.Chain.nil
  | cons hbc hchain => exact List.Chain.cons (le_trans hab hbc) hchain

/-- Exhaustive characterization of one iteration consuming a parsed
response, entered below the deadline with a non-throwing `onPolling`
invocation: the loop either keeps polling (with the interval unchanged, or
incremented by exactly 5 on `slow_down`), or returns a terminal result
right after the single poll that received the response. -/
theorem pollLoop_resp_total (s : Bool) (cb : Option (Nat → Option String))
    (expAt now k interval d : Nat) (r : DeviceTokenResponse) (rest : List PollEvent)
    (hnow : now < expAt) (hcb : cbAt cb k = none) :
    (∃ i2, (i2 = interval ∨ i2 = interval + 5) ∧
      pollLoop s cb expAt now k interval (PollEvent.resp d r :: rest) =
        ((pollLoop s cb expAt (now + interval * 1000 + d) (k + 1) i2 rest).1,
         notifyActs cb ++ Action.pollSent (now + interval * 1000) interval ::
           (pollLoop s cb expAt (now + interval * 1000 + d) (k + 1) i2 rest).2)) ∨
    (∃ res tail,
      pollLoop s cb expAt now k interval (PollEvent.resp d r :: rest) =
        (some (LoopExit.result res),
         notifyActs cb ++ Action.pollSent (now + interval * 1000) interval :: tail) ∧
      ((res.success = false ∧ res.error ≠ none ∧ tail = []) ∨
       (res = successResult r ∧
         tail = (if s then [Action.save (builtCredential r (now + interval * 1000 + d))]
                 else [])))) := by
  by_cases he : truthy r.error
  · obtain ⟨code, hre⟩ : ∃ c, r.error = some c := by
      cases hm : r.error with
      | none => rw [hm] at he; simp [truthy] at he
      | some c => exact ⟨c, rfl⟩
    have hne : code ≠ "" := by
      rw [hre] at he; simpa [truthy] using he
    by_cases h1 : code = "authorization_pending"
    · subst h1
      exact Or.inl ⟨interval, Or.inl rfl,
        pollLoop_pending_step s cb expAt now k interval d r rest hnow hcb hre⟩
    by_cases h2 : code = "slow_down"
    · subst h2
      exact Or.inl ⟨interval + 5, Or.inr rfl,
        pollLoop_slowdown_step s cb expAt now k interval d r rest hnow hcb hre⟩
    by_cases h3 : code = "expired_token"
    · subst h3
      refine Or.inr ⟨expiredResult, [],
        pollLoop_expired_step s cb expAt now k interval d r rest hnow hcb hre,
        Or.inl ⟨rfl, by simp [expiredResult], rfl⟩⟩
    by_cases h4 : code = "access_denied"
    · subst h4
      refine Or.inr ⟨deniedResult, [],
        pollLoop_denied_step s cb expAt now k interval d r rest hnow hcb hre,
        Or.inl ⟨rfl, by simp [deniedResult], rfl⟩⟩
    · refine Or.inr ⟨unknownResult code, [],
        pollLoop_unknown_step s cb expAt now k interval d code r rest hnow hcb hre
          hne h1 h2 h3 h4,
        Or.inl ⟨rfl, by simp [unknownResult], rfl⟩⟩
  · by_cases hk : truthy r.api_key
    · refine Or.inr ⟨successResult r, _,
        pollLoop_success_step s cb expAt now k interval d r rest hnow hcb
          (Bool.not_eq_true _ ▸ he) hk,
        Or.inr ⟨rfl, rfl⟩⟩
    · exact Or.inl ⟨interval, Or.inl rfl,
        pollLoop_continue_step s cb expAt now k interval d r rest hnow hcb
          (Bool.not_eq_true _ ▸ he) (Bool.not_eq_true _ ▸ hk)⟩

/-- The intervals actually slept before the successive polls of a run form a
non-decreasing chain below the loop's current interval. -/
theorem pollLoop_chain (s : Bool) (cb : Option (Nat → Option String)) (expAt : Nat) :
    ∀ (events : List PollEvent) (now k interval : Nat),
      List.Chain (· ≤ ·) interval
        (pollIntervals (pollLoop s cb expAt now k interval events).2) := by
  intro events
  induction events with
  | nil =>
      intro now k interval
      by_cases hnow : now < expAt
      · rcases hc : cbAt cb k with _ | m
        · rw [pollLoop_nil_none s cb expAt now k interval hnow hc,
            pollIntervals_notify]
          exact List.Chain.nil
        · rcases cb with _ | f
          · simp [cbAt] at hc
          · rw [pollLoop_cbThrow_step s f expAt now k interval m []
              hnow (by simpa [cbAt] using hc)]
            simp [pollIntervals]
      · rw [pollLoop_deadline s cb expAt now k interval [] (Nat.not_lt.mp hnow)]
        simp [pollIntervals]
  | cons e rest ih =>
      intro now k interval
      by_cases hnow : now < expAt
      · rcases hc : cbAt cb k with _ | m
        · cases e with
          | exn dl m2 =>
              rw [pollLoop_exn_step s cb expAt now k interval dl m2 rest hnow hc]
              rw [pollIntervals_append, pollIntervals_notify]
              simp only [List.nil_append]
              simp [pollIntervals]
          | resp d r =>
              rcases pollLoop_resp_total s cb expAt now k interval d r rest hnow hc with
                ⟨i2, hi2, heq⟩ | ⟨res, tail, heq, hres⟩
              · rw [heq]
                simp only [pollIntervals_append, pollIntervals_notify, List.nil_append,
                  pollIntervals]
                refine List.Chain.cons le_rfl ?_
                rcases hi2 with h | h
                · rw [← h]; exact ih _ _ _
                · exact chain_le_of_le (by omega : interval ≤ i2) (ih _ _ _)
              · rw [heq]
                simp only [pollIntervals_append, pollIntervals_notify, List.nil_append,
                  pollIntervals]
                refine List.Chain.cons le_rfl ?_
                rcases hres with ⟨-, -, htail⟩ | ⟨-, htail⟩
                · subst htail; exact List.Chain.nil
                · subst htail
                  cases s <;> simp [pollIntervals]
        · rcases cb with _ | f
          · simp [cbAt] at hc
          · rw [pollLoop_cbThrow_step s f expAt now k interval m _
              hnow (by simpa [cbAt] using hc)]
            simp [pollIntervals]
      · rw [pollLoop_deadline s cb expAt now k interval _ (Nat.not_lt.mp hnow)]
        simp [pollIntervals]

/-- With persistence disabled the polling loop never emits a save action. -/
theorem pollLoop_saves_none (cb : Option (Nat → Option String)) (expAt : Nat) :
    ∀ (events : List PollEvent) (now k interval : Nat),
      savesOf (pollLoop false cb expAt now k interval events).2 = [] := by
  intro events
  induction events with
  | nil =>
      intro now k interval
      by_cases hnow : now < expAt
      · rcases hc : cbAt cb k with _ | m
        · rw [pollLoop_nil_none false cb expAt now k interval hnow hc, savesOf_notify]
        · rcases cb with _ | f
          · simp [cbAt] at hc
          · rw [pollLoop_cbThrow_step false f expAt now k interval m []
              hnow (by simpa [cbAt] using hc)]
            simp [savesOf]
      · rw [pollLoop_deadline false cb expAt now k interval [] (Nat.not_lt.mp hnow)]
        simp [savesOf]
  | cons e rest ih =>
      intro now k interval
      by_cases hnow : now < expAt
      · rcases hc : cbAt cb k with _ | m
        · cases e with
          | exn dl m2 =>
              rw [pollLoop_exn_step false cb expAt now k interval dl m2 rest hnow hc,
                savesOf_append, savesOf_notify]
              simp [savesOf]
          | resp d r =>
              rcases pollLoop_resp_total false cb expAt now k interval d r rest hnow hc with
                ⟨i2, hi2, heq⟩ | ⟨res, tail, heq, hres⟩
              · rw [heq]
                simp only [savesOf_append, savesOf_notify, List.nil_append, savesOf]
                exact ih _ _ _
              · rw [heq]
                simp only [savesOf_append, savesOf_notify, List.nil_append, savesOf]
                rcases hres with ⟨-, -, htail⟩ | ⟨-, htail⟩
                · subst htail; rfl
                · simp only [if_neg Bool.false_ne_true] at htail
                  subst htail; rfl
        · rcases cb with _ | f
          · simp [cbAt] at hc
          · rw [pollLoop_cbThrow_step false f expAt now k interval m _
              hnow (by simpa [cbAt] using hc)]
            simp [savesOf]
      · rw [pollLoop_deadline false cb expAt now k interval _ (Nat.not_lt.mp hnow)]
        simp [savesOf]

/-- The polling loop saves at most once, and only on a successful result. -/
theorem pollLoop_saves_result (s : Bool) (cb : Option (Nat → Option String))
    (expAt : Nat) :
    ∀ (events : List PollEvent) (now k interval : Nat),
      (savesOf (pollLoop s cb expAt now k interval events).2).length ≤ 1 ∧
      (savesOf (pollLoop s cb expAt now k interval events).2 ≠ [] →
        ∃ res, (pollLoop s cb expAt now k interval events).1 =
            some (LoopExit.result res) ∧ res.success = true) := by
  intro events
  induction events with
  | nil =>
      intro now k interval
      by_cases hnow : now < expAt
      · rcases hc : cbAt cb k with _ | m
        · rw [pollLoop_nil_none s cb expAt now k interval hnow hc, savesOf_notify]
          simp
        · rcases cb with _ | f
          · simp [cbAt] at hc
          · rw [pollLoop_cbThrow_step s f expAt now k interval m []
              hnow (by simpa [cbAt] using hc)]
            simp [savesOf]
      · rw [pollLoop_deadline s cb expAt now k interval [] (Nat.not_lt.mp hnow)]
        simp [savesOf]
  | cons e rest ih =>
      intro now k interval
      by_cases hnow : now < expAt
      · rcases hc : cbAt cb k with _ | m
        · cases e with
          | exn dl m2 =>
              rw [pollLoop_exn_step s cb expAt now k interval dl m2 rest hnow hc,
                savesOf_append, savesOf_notify]
              simp [savesOf]
          | resp d r =>
              rcases pollLoop_resp_total s cb expAt now k interval d r rest hnow hc with
                ⟨i2, hi2, heq⟩ | ⟨res, tail, heq, hres⟩
              · rw [heq]
                simp only [savesOf_append, savesOf_notify, List.nil_append, savesOf]
                exact ih _ _ _
              · rw [heq]
                simp only [savesOf_append, savesOf_notify, List.nil_append, savesOf]
                rcases hres with ⟨-, -, htail⟩ | ⟨hres_eq, htail⟩
                · subst htail; simp [savesOf]
                · subst htail
                  cases s with
                  | false => simp [savesOf]
                  | true =>
                      simp only [if_pos rfl]
                      refine ⟨by simp [savesOf], fun _ => ⟨res, rfl, ?_⟩⟩
                      rw [hres_eq]; rfl
        · rcases cb with _ | f
          · simp [cbAt] at hc
          · rw [pollLoop_cbThrow_step s f expAt now k interval m _
              hnow (by simpa [cbAt] using hc)]
            simp [savesOf]
      · rw [pollLoop_deadline s cb expAt now k interval _ (Nat.not_lt.mp hnow)]
        simp [savesOf]

/-- Every result the polling loop can return has either success with no
error field, or failure with a populated error field. -/
theorem pollLoop_result_shape (s : Bool) (cb : Option (Nat → Option String))
    (expAt : Nat) :
    ∀ (events : List PollEvent) (now k interval : Nat) (res : DeviceAuthResult),
      (pollLoop s cb expAt now k interval events).1 = some (LoopExit.result res) →
      (res.success = true ∧ res.error = none) ∨
      (res.success = false ∧ res.error ≠ none) := by
  intro events
  induction events with
  | nil =>
      intro now k interval res hres
      by_cases hnow : now < expAt
      · rcases hc : cbAt cb k with _ | m
        · rw [pollLoop_nil_none s cb expAt now k interval hnow hc] at hres
          simp at hres
        · rcases cb with _ | f
          · simp [cbAt] at hc
          · rw [pollLoop_cbThrow_step s f expAt now k interval m []
              hnow (by simpa [cbAt] using hc)] at hres
            simp at hres
      · rw [pollLoop_deadline s cb expAt now k interval [] (Nat.not_lt.mp hnow)] at hres
        simp at hres
        subst hres
        exact Or.inr ⟨rfl, by simp [expiredResult]⟩
  | cons e rest ih =>
      intro now k interval res hres
      by_cases hnow : now < expAt
      · rcases hc : cbAt cb k with _ | m
        · cases e with
          | exn dl m2 =>
              rw [pollLoop_exn_step s cb expAt now k interval dl m2 rest hnow hc] at hres
              simp at hres
          | resp d r =>
              rcases pollLoop_resp_total s cb expAt now k interval d r rest hnow hc with
                ⟨i2, hi2, heq⟩ | ⟨res0, tail, heq, hshape⟩
              · rw [heq] at hres
                exact ih _ _ _ res hres
              · rw [heq] at hres
                simp only [Option.some.injEq, LoopExit.result.injEq] at hres
                subst hres
                rcases hshape with ⟨hs, herr, -⟩ | ⟨hres_eq, -⟩
                · exact Or.inr ⟨hs, herr⟩
                · subst hres_eq
                  exact Or.inl ⟨rfl, rfl⟩
        · rcases cb with _ | f
          · simp [cbAt] at hc
          · rw [pollLoop_cbThrow_step s f expAt now k interval m _
              hnow (by simpa [cbAt] using hc)] at hres
            simp at hres
      · rw [pollLoop_deadline s cb expAt now k interval _ (Nat.not_lt.mp hnow)] at hres
        simp at hres
        subst hres
        exact Or.inr ⟨rfl, by simp [expiredResult]⟩

/-- When an `onPolling` callback is supplied, every poll the loop issues is
immediately preceded by an invocation of it. -/
theorem pollLoop_preceded (s : Bool) (f : Nat → Option String) (expAt : Nat) :
    ∀ (events : List PollEvent) (now k interval : Nat),
      pollsPreceded (pollLoop s (some f) expAt now k interval events).2 = true := by
  intro events
  induction events with
  | nil =>
      intro now k interval
      by_cases hnow : now < expAt
      · rcases hc : f k with _ | m
        · rw [pollLoop_nil_none s (some f) expAt now k interval hnow
            (by simpa [cbAt] using hc)]
          simp [notifyActs, pollsPreceded]
        · rw [pollLoop_cbThrow_step s f expAt now k interval m [] hnow hc]
          simp [pollsPreceded]
      · rw [pollLoop_deadline s (some f) expAt now k interval [] (Nat.not_lt.mp hnow)]
        simp [pollsPreceded]
  | cons e rest ih =>
      intro now k interval
      by_cases hnow : now < expAt
      · rcases hc : f k with _ | m
        · cases e with
          | exn dl m2 =>
              rw [pollLoop_exn_step s (some f) expAt now k interval dl m2 rest hnow
                (by simpa [cbAt] using hc)]
              simp [notifyActs, pollsPreceded]
          | resp d r =>
              rcases pollLoop_resp_total s (some f) expAt now k interval d r rest hnow
                  (by simpa [cbAt] using hc) with
                ⟨i2, hi2, heq⟩ | ⟨res, tail, heq, hres⟩
              · rw [heq]
                simp only [notifyActs, List.cons_append, List.nil_append, pollsPreceded]
                exact ih _ _ _
              · rw [heq]
                simp only [notifyActs, List.cons_append, List.nil_append, pollsPreceded]
                rcases hres with ⟨-, -, htail⟩ | ⟨-, htail⟩
                · subst htail; rfl
                · subst htail
                  cases s <;> simp [pollsPreceded]
        · rw [pollLoop_cbThrow_step s f expAt now k interval m _ hnow hc]
          simp [pollsPreceded]
      · rw [pollLoop_deadline s (some f) expAt now k interval _ (Nat.not_lt.mp hnow)]
        simp [pollsPreceded]

/-- The polling loop emits neither code-request nor code-received actions. -/
theorem pollLoop_no_code (s : Bool) (cb : Option (Nat → Option String))
    (expAt : Nat) :
    ∀ (events : List PollEvent) (now k interval : Nat),
      codeReceivedCount (pollLoop s cb expAt now k interval events).2 = 0 ∧
      codeRequestCount (pollLoop s cb expAt now k interval events).2 = 0 := by
  intro events
  induction events with
  | nil =>
      intro now k interval
      by_cases hnow : now < expAt
      · rcases hc : cbAt cb k with _ | m
        · rw [pollLoop_nil_none s cb expAt now k interval hnow hc]
          exact ⟨codeReceivedCount_notify cb, codeRequestCount_notify cb⟩
        · rcases cb with _ | f
          · simp [cbAt] at hc
          · rw [pollLoop_cbThrow_step s f expAt now k interval m []
              hnow (by simpa [cbAt] using hc)]
            simp [codeReceivedCount, codeRequestCount]
      · rw [pollLoop_deadline s cb expAt now k interval [] (Nat.not_lt.mp hnow)]
        simp [codeReceivedCount, codeRequestCount]
  | cons e rest ih =>
      intro now k interval
      by_cases hnow : now < expAt
      · rcases hc : cbAt cb k with _ | m
        · cases e with
          | exn dl m2 =>
              rw [pollLoop_exn_step s cb expAt now k interval dl m2 rest hnow hc,
                codeReceivedCount_append, codeRequestCount_append,
                codeReceivedCount_notify, codeRequestCount_notify]
              simp [codeReceivedCount, codeRequestCount]
          | resp d r =>
              rcases pollLoop_resp_total s cb expAt now k interval d r rest hnow hc with
                ⟨i2, hi2, heq⟩ | ⟨res, tail, heq, hres⟩
              · rw [heq]
                simp only [codeReceivedCount_append, codeRequestCount_append,
                  codeReceivedCount_notify, codeRequestCount_notify,
                  codeReceivedCount, codeRequestCount]
                have := ih (now + interval * 1000 + d) (k + 1) i2
                omega
              · rw [heq]
                simp only [codeReceivedCount_append, codeRequestCount_append,
                  codeReceivedCount_notify, codeRequestCount_notify,
                  codeReceivedCount, codeRequestCount]
                rcases hres with ⟨-, -, htail⟩ | ⟨-, htail⟩
                · subst htail; simp [codeReceivedCount, codeRequestCount]
                · subst htail
                  cases s <;> simp [codeReceivedCount, codeRequestCount]
        · rcases cb with _ | f
          · simp [cbAt] at hc
          · rw [pollLoop_cbThrow_step s f expAt now k interval m _
              hnow (by simpa [cbAt] using hc)]
            simp [codeReceivedCount, codeRequestCount]
      · rw [pollLoop_deadline s cb expAt now k interval _ (Nat.not_lt.mp hnow)]
        simp [codeReceivedCount, codeRequestCount]

/-- If a run issues any poll at all, the first one goes out exactly one
sleep of the current interval after the cycle starts. -/
theorem pollLoop_first_pollTime (s : Bool) (cb : Option (Nat → Option String))
    (expAt now k interval : Nat) (events : List PollEvent) (t : Nat)
    (h : (pollTimes (pollLoop s cb expAt now k interval events).2).head? = some t) :
    t = now + interval * 1000 := by
  by_cases hnow : now < expAt
  · rcases hc : cbAt cb k with _ | m
    · cases events with
      | nil =>
          rw [pollLoop_nil_none s cb expAt now k interval hnow hc,
            pollTimes_notify] at h
          simp at h
      | cons e rest =>
          cases e with
          | exn dl m2 =>
              rw [pollLoop_exn_step s cb expAt now k interval dl m2 rest hnow hc,
                pollTimes_append, pollTimes_notify] at h
              simp [pollTimes] at h
              omega
          | resp d r =>
              rcases pollLoop_resp_total s cb expAt now k interval d r rest hnow hc with
                ⟨i2, hi2, heq⟩ | ⟨res, tail, heq, hres⟩ <;>
                · rw [heq] at h
                  rw [pollTimes_append, pollTimes_notify] at h
                  simp only [List.nil_append, pollTimes, List.head?_cons,
                    Option.some.injEq] at h
                  omega
    · rcases cb with _ | f
      · simp [cbAt] at hc
      · rw [pollLoop_cbThrow_step s f expAt now k interval m events
          hnow (by simpa [cbAt] using hc)] at h
        simp [pollTimes] at h
  · rw [pollLoop_deadline s cb expAt now k interval events (Nat.not_lt.mp hnow)] at h
    simp [pollTimes] at h

/-- If a run issues any poll at all, the first one is slept at exactly the
current interval. -/
theorem pollLoop_first_pollInterval (s : Bool) (cb : Option (Nat → Option String))
    (expAt now k interval : Nat) (events : List PollEvent) (i : Nat)
    (h : (pollIntervals (pollLoop s cb expAt now k interval events).2).head? = some i) :
    i = interval := by
  by_cases hnow : now < expAt
  · rcases hc : cbAt cb k with _ | m
    · cases events with
      | nil =>
          rw [pollLoop_nil_none s cb expAt now k interval hnow hc,
            pollIntervals_notify] at h
          simp at h
      | cons e rest =>
          cases e with
          | exn dl m2 =>
              rw [pollLoop_exn_step s cb expAt now k interval dl m2 rest hnow hc,
                pollIntervals_append, pollIntervals_notify] at h
              simp [pollIntervals] at h
              omega
          | resp d r =>
              rcases pollLoop_resp_total s cb expAt now k interval d r rest hnow hc with
                ⟨i2, hi2, heq⟩ | ⟨res, tail, heq, hres⟩ <;>
                · rw [heq] at h
                  rw [pollIntervals_append, pollIntervals_notify] at h
                  simp only [List.nil_append, pollIntervals, List.head?_cons,
                    Option.some.injEq] at h
                  omega
    · rcases cb with _ | f
      · simp [cbAt] at hc
      · rw [pollLoop_cbThrow_step s f expAt now k interval m events
          hnow (by simpa [cbAt] using hc)] at h
        simp [pollIntervals] at h
  · rw [pollLoop_deadline s cb expAt now k interval events (Nat.not_lt.mp hnow)] at h
    simp [pollIntervals] at h

/-- If a run over exclusively non-terminal responses terminates with a
result, that result is the expired one: the deadline is the only exit. -/
theorem pollLoop_nonterminal (s : Bool) (cb : Option (Nat → Option String))
    (expAt : Nat) (hcb : cbSilent cb) :
    ∀ (events : List PollEvent) (now k interval : Nat) (x : LoopExit),
      (∀ e ∈ events, isNonTerminalEvent e = true) →
      (pollLoop s cb expAt now k interval events).1 = some x →
      x = LoopExit.result expiredResult := by
  intro events
  induction events with
  | nil =>
      intro now k interval x hall hx
      by_cases hnow : now < expAt
      · rw [pollLoop_nil_none s cb expAt now k interval hnow (cbSilent_at cb k hcb)] at hx
        simp at hx
      · rw [pollLoop_deadline s cb expAt now k interval [] (Nat.not_lt.mp hnow)] at hx
        simp at hx
        exact hx.symm
  | cons e rest ih =>
      intro now k interval x hall hx
      by_cases hnow : now < expAt
      · cases e with
        | exn dl m2 =>
            have := hall (PollEvent.exn dl m2) (by simp)
            simp [isNonTerminalEvent] at this
        | resp d r =>
            have hnt := hall (PollEvent.resp d r) (by simp)
            have hrest : ∀ e ∈ rest, isNonTerminalEvent e = true :=
              fun e he => hall e (List.mem_cons_of_mem _ he)
            by_cases he : truthy r.error
            · obtain ⟨code, hre⟩ : ∃ c, r.error = some c := by
                cases hm : r.error with
                | none => rw [hm] at he; simp [truthy] at he
                | some c => exact ⟨c, rfl⟩
              have hne : code ≠ "" := by
                rw [hre] at he; simpa [truthy] using he
              by_cases hp1 : code = "authorization_pending"
              · subst hp1
                rw [pollLoop_pending_step s cb expAt now k interval d r rest hnow
                  (cbSilent_at cb k hcb) hre] at hx
                exact ih _ _ _ x hrest hx
              by_cases hp2 : code = "slow_down"
              · subst hp2
                rw [pollLoop_slowdown_step s cb expAt now k interval d r rest hnow
                  (cbSilent_at cb k hcb) hre] at hx
                exact ih _ _ _ x hrest hx
              · exfalso
                simp [isNonTerminalEvent, hre, truthy, hne, hp1, hp2] at hnt
            · have he' : truthy r.error = false := Bool.not_eq_true _ ▸ he
              have hk : truthy r.api_key = false := by
                simpa [isNonTerminalEvent, he'] using hnt
              rw [pollLoop_continue_step s cb expAt now k interval d r rest hnow
                (cbSilent_at cb k hcb) he' hk] at hx
              exact ih _ _ _ x hrest hx
      · rw [pollLoop_deadline s cb expAt now k interval _ (Nat.not_lt.mp hnow)] at hx
        simp at hx
        exact hx.symm

/-- Two never-throwing `onPolling` callbacks induce identical runs: result
and trace alike. -/
theorem pollLoop_cb_irrelevant (s : Bool) (expAt : Nat)
    (f1 f2 : Nat → Option String)
    (h1 : ∀ j, f1 j = none) (h2 : ∀ j, f2 j = none) :
    ∀ (events : List PollEvent) (now k interval : Nat),
      pollLoop s (some f1) expAt now k interval events =
        pollLoop s (some f2) expAt now k interval events := by
  intro events
  induction events with
  | nil =>
      intro now k interval
      by_cases hnow : now < expAt
      · rw [pollLoop_nil_none s (some f1) expAt now k interval hnow
            (by simpa [cbAt] using h1 k),
          pollLoop_nil_none s (some f2) expAt now k interval hnow
            (by simpa [cbAt] using h2 k)]
        simp [notifyActs]
      · rw [pollLoop_deadline s (some f1) expAt now k interval [] (Nat.not_lt.mp hnow),
          pollLoop_deadline s (some f2) expAt now k interval [] (Nat.not_lt.mp hnow)]
  | cons e rest ih =>
      intro now k interval
      by_cases hnow : now < expAt
      · cases e with
        | exn dl m2 =>
            rw [pollLoop_exn_step s (some f1) expAt now k interval dl m2 rest hnow
                (by simpa [cbAt] using h1 k),
              pollLoop_exn_step s (some f2) expAt now k interval dl m2 rest hnow
                (by simpa [cbAt] using h2 k)]
            simp [notifyActs]
        | resp d r =>
            by_cases he : truthy r.error
            · obtain ⟨code, hre⟩ : ∃ c, r.error = some c := by
                cases hm : r.error with
                | none => rw [hm] at he; simp [truthy] at he
                | some c => exact ⟨c, rfl⟩
              have hne : code ≠ "" := by
                rw [hre] at he; simpa [truthy] using he
              by_cases hp1 : code = "authorization_pending"
              · subst hp1
                rw [pollLoop_pending_step s (some f1) expAt now k interval d r rest hnow
                    (by simpa [cbAt] using h1 k) hre,
                  pollLoop_pending_step s (some f2) expAt now k interval d r rest hnow
                    (by simpa [cbAt] using h2 k) hre, ih]
                simp [notifyActs]
              by_cases hp2 : code = "slow_down"
              · subst hp2
                rw [pollLoop_slowdown_step s (some f1) expAt now k interval d r rest hnow
                    (by simpa [cbAt] using h1 k) hre,
                  pollLoop_slowdown_step s (some f2) expAt now k interval d r rest hnow
                    (by simpa [cbAt] using h2 k) hre, ih]
                simp [notifyActs]
              by_cases hp3 : code = "expired_token"
              · subst hp3
                rw [pollLoop_expired_step s (some f1) expAt now k interval d r rest hnow
                    (by simpa [cbAt] using h1 k) hre,
                  pollLoop_expired_step s (some f2) expAt now k interval d r rest hnow
                    (by simpa [cbAt] using h2 k) hre]
                simp [notifyActs]
              by_cases hp4 : code = "access_denied"
              · subst hp4
                rw [pollLoop_denied_step s (some f1) expAt now k interval d r rest hnow
                    (by simpa [cbAt] using h1 k) hre,
                  pollLoop_denied_step s (some f2) expAt now k interval d r rest hnow
                    (by simpa [cbAt] using h2 k) hre]
                simp [notifyActs]
              · rw [pollLoop_unknown_step s (some f1) expAt now k interval d code r rest
                    hnow (by simpa [cbAt] using h1 k) hre hne hp1 hp2 hp3 hp4,
                  pollLoop_unknown_step s (some f2) expAt now k interval d code r rest
                    hnow (by simpa [cbAt] using h2 k) hre hne hp1 hp2 hp3 hp4]
                simp [notifyActs]
            · have he2 : truthy r.error = false := Bool.not_eq_true _ ▸ he
              by_cases hk : truthy r.api_key
              · rw [pollLoop_success_step s (some f1) expAt now k interval d r rest hnow
                    (by simpa [cbAt] using h1 k) he2 hk,
                  pollLoop_success_step s (some f2) expAt now k interval d r rest hnow
                    (by simpa [cbAt] using h2 k) he2 hk]
                simp [notifyActs]
              · have hk2 : truthy r.api_key = false := Bool.not_eq_true _ ▸ hk
                rw [pollLoop_continue_step s (some f1) expAt now k interval d r rest hnow
                    (by simpa [cbAt] using h1 k) he2 hk2,
                  pollLoop_continue_step s (some f2) expAt now k interval d r rest hnow
                    (by simpa [cbAt] using h2 k) he2 hk2, ih]
                simp [notifyActs]
      · rw [pollLoop_deadline s (some f1) expAt now k interval _ (Nat.not_lt.mp hnow),
          pollLoop_deadline s (some f2) expAt now k interval _ (Nat.not_lt.mp hnow)]

/-- Any number of `authorization_pending` responses followed by one
authorized response, each consumed by a cycle that starts before the
deadline, drives the loop to the success result of the final response. -/
theorem pollLoop_pending_then_success (s : Bool) (cb : Option (Nat → Option String))
    (expAt : Nat) (hcb : cbSilent cb) :
    ∀ (pre : List PollEvent) (now k interval d : Nat) (r : DeviceTokenResponse),
      (∀ e ∈ pre, isPendingEvent e = true) →
      checksPass expAt now interval (pre ++ [PollEvent.resp d r]) = true →
      truthy r.error = false → truthy r.api_key = true →
      (pollLoop s cb expAt now k interval (pre ++ [PollEvent.resp d r])).1 =
        some (LoopExit.result (successResult r)) := by
  intro pre
  induction pre with
  | nil =>
      intro now k interval d r hall hchk he hk
      simp only [List.nil_append] at hchk ⊢
      simp only [checksPass, Bool.and_eq_true, decide_eq_true_eq] at hchk
      rw [pollLoop_success_step s cb expAt now k interval d r [] hchk.1
        (cbSilent_at cb k hcb) he hk]
  | cons e pre2 ih =>
      intro now k interval d r hall hchk he hk
      have hpend := hall e (by simp)
      cases e with
      | exn dl m => simp [isPendingEvent] at hpend
      | resp d0 r0 =>
          have hre : r0.error = some "authorization_pending" := by
            simpa [isPendingEvent] using hpend
          simp only [List.cons_append, checksPass, Bool.and_eq_true,
            decide_eq_true_eq] at hchk
          have hnow : now < expAt := hchk.1
          have hchk2 : checksPass expAt (now + interval * 1000 + d0) interval
              (pre2 ++ [PollEvent.resp d r]) = true := by
            have := hchk.2
            simpa [stepTime, stepInterval, hre, truthy] using this
          rw [List.cons_append,
            pollLoop_pending_step s cb expAt now k interval d0 r0
              (pre2 ++ [PollEvent.resp d r]) hnow (cbSilent_at cb k hcb) hre]
          exact ih (now + interval * 1000 + d0) (k + 1) interval d r
            (fun e he2 => hall e (List.mem_cons_of_mem _ he2)) hchk2 he hk

/-! ## Orchestrator-level unfolding -/

/-- A thrown `fetch` of the device-code endpoint is caught and mapped. -/
theorem executeDeviceFlow_netError (options : DeviceFlowOptions) (m : String)
    (events : List PollEvent) :
    executeDeviceFlow options (CodeRequestOutcome.netError m) events =
      (some (caughtResult m), [Action.codeRequest]) := rfl

/-- A non-ok device-code response is caught and mapped, before any callback
or poll. -/
theorem executeDeviceFlow_httpFail (options : DeviceFlowOptions)
    (hr : HttpCodeResponse) (events : List PollEvent) (h : hr.ok = false) :
    executeDeviceFlow options (CodeRequestOutcome.http hr) events =
      (some (caughtResult ("Failed to request device code: " ++ hr.text)),
       [Action.codeRequest]) := by
  simp [executeDeviceFlow, requestDeviceCode, h]

/-- A throwing `onCodeReceived` is caught and mapped, before any poll. -/
theorem executeDeviceFlow_ocrThrow (options : DeviceFlowOptions)
    (hr : HttpCodeResponse) (events : List PollEvent) (m : String)
    (hok : hr.ok = true) (hm : options.onCodeReceived = some m) :
    executeDeviceFlow options (CodeRequestOutcome.http hr) events =
      (some (caughtResult m),
       [Action.codeRequest,
        Action.codeReceived hr.json.user_code hr.json.verification_uri]) := by
  simp [executeDeviceFlow, requestDeviceCode, hok, hm]

/-- With a good grant and a normally-returning `onCodeReceived`, the flow is
the polling loop run from clock 0 with the grant's deadline and interval,
its exit mapped through the `return`s and the `catch`. -/
theorem executeDeviceFlow_loop (options : DeviceFlowOptions)
    (hr : HttpCodeResponse) (events : List PollEvent)
    (hok : hr.ok = true) (hocr : options.onCodeReceived = none) :
    executeDeviceFlow options (CodeRequestOutcome.http hr) events =
      ((match (pollLoop (options.saveCredentials.getD true) options.onPolling
          (hr.json.expires_in * 1000) 0 0 hr.json.interval events).1 with
        | none => none
        | some (LoopExit.result r) => some r
        | some (LoopExit.thrown m) => some (caughtResult m)),
       Action.codeRequest ::
         Action.codeReceived hr.json.user_code hr.json.verification_uri ::
         (pollLoop (options.saveCredentials.getD true) options.onPolling
           (hr.json.expires_in * 1000) 0 0 hr.json.interval events).2) := by
  simp [executeDeviceFlow, requestDeviceCode, hok, hocr]
  rcases hp : (pollLoop (options.saveCredentials.getD true) options.onPolling
      (hr.json.expires_in * 1000) 0 0 hr.json.interval events).1 with _ | x
  · rfl
  · cases x <;> rfl

/-! ## Sample values for concrete witnesses -/

/-- The grant of the spec's worked scenario. -/
def sampleGrant : DeviceCodeResponse :=
  { device_code := "d1", user_code := "ABCD-1234",
    verification_uri := "https://x/verify", expires_in := 600, interval := 5 }

/-- An `authorization_pending` token response. -/
def pendingResp : DeviceTokenResponse := { error := some "authorization_pending" }

/-- The authorized token response of the spec's worked scenario. -/
def okResp : DeviceTokenResponse :=
  { api_key := some "sk_live_123", email := some "a@b.com",
    provider := some "github" }

/-! ## The fallible-store loop: single-step characterization -/

/-- Deadline exit of the fallible-store loop, as for `pollLoop`. -/
theorem pollLoopSave_deadline (s : Bool) (st : Option String)
    (cb : Option (Nat → Option String)) (expAt now k interval : Nat)
    (events : List PollEvent) (h : expAt ≤ now) :
    pollLoopSave s st cb expAt now k interval events =
      (some (LoopExit.result expiredResult), []) := by
  cases events with
  | nil => rw [pollLoopSave.eq_def]; simp [Nat.not_lt.mpr h]
  | cons e rest =>
      cases e with
      | exn dl m => rw [pollLoopSave.eq_def]; simp [Nat.not_lt.mpr h]
      | resp d r => rw [pollLoopSave.eq_def]; simp [Nat.not_lt.mpr h]

/-- Event exhaustion leaves the fallible-store run undetermined. -/
theorem pollLoopSave_nil_none (s : Bool) (st : Option String)
    (cb : Option (Nat → Option String)) (expAt now k interval : Nat)
    (hnow : now < expAt) (hcb : cbAt cb k = none) :
    pollLoopSave s st cb expAt now k interval [] = (none, notifyActs cb) := by
  cases cb with
  | none => rw [pollLoopSave.eq_def]; simp [hnow, notifyActs]
  | some f =>
      simp only [cbAt] at hcb
      rw [pollLoopSave.eq_def]
      simp [hnow, hcb, notifyActs]

/-- A throwing `onPolling` aborts the iteration before the poll, as for
`pollLoop`. -/
theorem pollLoopSave_cbThrow_step (s : Bool) (st : Option String)
    (f : Nat → Option String) (expAt now k interval : Nat) (m : String)
    (events : List PollEvent) (hnow : now < expAt) (hf : f k = some m) :
    pollLoopSave s st (some f) expAt now k interval events =
      (some (LoopExit.thrown m), [Action.pollingCb]) := by
  cases events with
  | nil => rw [pollLoopSave.eq_def]; simp [hnow, hf]
  | cons e rest =>
      cases e with
      | exn dl m2 => rw [pollLoopSave.eq_def]; simp [hnow, hf]
      | resp d r => rw [pollLoopSave.eq_def]; simp [hnow, hf]

/-- A transport failure of `pollForToken` propagates after the failed
poll, as for `pollLoop`. -/
theorem pollLoopSave_exn_step (s : Bool) (st : Option String)
    (cb : Option (Nat → Option String)) (expAt now k interval d : Nat)
    (m : String) (rest : List PollEvent)
    (hnow : now < expAt) (hcb : cbAt cb k = none) :
    pollLoopSave s st cb expAt now k interval (PollEvent.exn d m :: rest) =
      (some (LoopExit.thrown m),
       notifyActs cb ++ [Action.pollSent (now + interval * 1000) interval]) := by
  cases cb with
  | none => rw [pollLoopSave.eq_def]; simp [hnow, notifyActs]
  | some f =>
      simp only [cbAt] at hcb
      rw [pollLoopSave.eq_def]
      simp [hnow, hcb, notifyActs]

/-- `authorization_pending` keeps the fallible-store loop polling with the
same interval. -/
theorem pollLoopSave_pending_step (s : Bool) (st : Option String)
    (cb : Option (Nat → Option String)) (expAt now k interval d : Nat)
    (r : DeviceTokenResponse) (rest : List PollEvent)
    (hnow : now < expAt) (hcb : cbAt cb k = none)
    (hr : r.error = some "authorization_pending") :
    pollLoopSave s st cb expAt now k interval (PollEvent.resp d r :: rest) =
      ((pollLoopSave s st cb expAt (now + interval * 1000 + d) (k + 1)
          interval rest).1,
       notifyActs cb ++ Action.pollSent (now + interval * 1000) interval ::
         (pollLoopSave s st cb expAt (now + interval * 1000 + d) (k + 1)
           interval rest).2) := by
  cases cb with
  | none =>
      rw [pollLoopSave.eq_def]
      simp [hnow, hr, truthy, notifyActs]
  | some f =>
      simp only [cbAt] at hcb
      rw [pollLoopSave.eq_def]
      simp [hnow, hcb, hr, truthy, notifyActs]

/-- `slow_down` increments the fallible-store loop's interval by exactly
5 seconds. -/
theorem pollLoopSave_slowdown_step (s : Bool) (st : Option String)
    (cb : Option (Nat → Option String)) (expAt now k interval d : Nat)
    (r : DeviceTokenResponse) (rest : List PollEvent)
    (hnow : now < expAt) (hcb : cbAt cb k = none)
    (hr : r.error = some "slow_down") :
    pollLoopSave s st cb expAt now k interval (PollEvent.resp d r :: rest) =
      ((pollLoopSave s st cb expAt (now + interval * 1000 + d) (k + 1)
          (interval + 5) rest).1,
       notifyActs cb ++ Action.pollSent (now + interval * 1000) interval ::
         (pollLoopSave s st cb expAt (now + interval * 1000 + d) (k + 1)
           (interval + 5) rest).2) := by
  cases cb with
  | none =>
      rw [pollLoopSave.eq_def]
      simp [hnow, hr, truthy, notifyActs]
  | some f =>
      simp only [cbAt] at hcb
      rw [pollLoopSave.eq_def]
      simp [hnow, hcb, hr, truthy, notifyActs]

/-- A falsy-error falsy-`api_key` response keeps the fallible-store loop
polling with the interval unchanged. -/
theorem pollLoopSave_continue_step (s : Bool) (st : Option String)
    (cb : Option (Nat → Option String)) (expAt now k interval d : Nat)
    (r : DeviceTokenResponse) (rest : List PollEvent)
    (hnow : now < expAt) (hcb : cbAt cb k = none)
    (he : truthy r.error = false) (hk : truthy r.api_key = false) :
    pollLoopSave s st cb expAt now k interval (PollEvent.resp d r :: rest) =
      ((pollLoopSave s st cb expAt (now + interval * 1000 + d) (k + 1)
          interval rest).1,
       notifyActs cb ++ Action.pollSent (now + interval * 1000) interval ::
         (pollLoopSave s st cb expAt (now + interval * 1000 + d) (k + 1)
           interval rest).2) := by
  cases cb with
  | none =>
      rw [pollLoopSave.eq_def]
      simp [hnow, he, hk, notifyActs]
  | some f =>
      simp only [cbAt] at hcb
      rw [pollLoopSave.eq_def]
      simp [hnow, hcb, he, hk, notifyActs]

/-- `expired_token` terminates the fallible-store loop at once. -/
theorem pollLoopSave_expired_step (s : Bool) (st : Option String)
    (cb : Option (Nat → Option String)) (expAt now k interval d : Nat)
    (r : DeviceTokenResponse) (rest : List PollEvent)
    (hnow : now < expAt) (hcb : cbAt cb k = none)
    (hr : r.error = some "expired_token") :
    pollLoopSave s st cb expAt now k interval (PollEvent.resp d r :: rest) =
      (some (LoopExit.result expiredResult),
       notifyActs cb ++ [Action.pollSent (now + interval * 1000) interval]) := by
  cases cb with
  | none =>
      rw [pollLoopSave.eq_def]
      simp [hnow, hr, truthy, notifyActs]
  | some f =>
      simp only [cbAt] at hcb
      rw [pollLoopSave.eq_def]
      simp [hnow, hcb, hr, truthy, notifyActs]

/-- `access_denied` terminates the fallible-store loop at once. -/
theorem pollLoopSave_denied_step (s : Bool) (st : Option String)
    (cb : Option (Nat → Option String)) (expAt now k interval d : Nat)
    (r : DeviceTokenResponse) (rest : List PollEvent)
    (hnow : now < expAt) (hcb : cbAt cb k = none)
    (hr : r.error = some "access_denied") :
    pollLoopSave s st cb expAt now k interval (PollEvent.resp d r :: rest) =
      (some (LoopExit.result deniedResult),
       notifyActs cb ++ [Action.pollSent (now + interval * 1000) interval]) := by
  cases cb with
  | none =>
      rw [pollLoopSave.eq_def]
      simp [hnow, hr, truthy, notifyActs]
  | some f =>
      simp only [cbAt] at hcb
      rw [pollLoopSave.eq_def]
      simp [hnow, hcb, hr, truthy, notifyActs]

/-- Any other truthy error code terminates the fallible-store loop with the
raw code attached. -/
theorem pollLoopSave_unknown_step (s : Bool) (st : Option String)
    (cb : Option (Nat → Option String)) (expAt now k interval d : Nat)
    (code : String) (r : DeviceTokenResponse) (rest : List PollEvent)
    (hnow : now < expAt) (hcb : cbAt cb k = none)
    (hr : r.error = some code) (h0 : code ≠ "")
    (h1 : code ≠ "authorization_pending") (h2 : code ≠ "slow_down")
    (h3 : code ≠ "expired_token") (h4 : code ≠ "access_denied") :
    pollLoopSave s st cb expAt now k interval (PollEvent.resp d r :: rest) =
      (some (LoopExit.result (unknownResult code)),
       notifyActs cb ++ [Action.pollSent (now + interval * 1000) interval]) := by
  cases cb with
  | none =>
      rw [pollLoopSave.eq_def]
      simp [hnow, hr, h0, h1, h2, h3, h4, truthy, notifyActs]
  | some f =>
      simp only [cbAt] at hcb
      rw [pollLoopSave.eq_def]
      simp [hnow, hcb, hr, h0, h1, h2, h3, h4, truthy, notifyActs]

/-- Success with persistence off: no store call, success returned, for any
store behaviour. -/
theorem pollLoopSave_success_nosave_step (st : Option String)
    (cb : Option (Nat → Option String)) (expAt now k interval d : Nat)
    (r : DeviceTokenResponse) (rest : List PollEvent)
    (hnow : now < expAt) (hcb : cbAt cb k = none)
    (he : truthy r.error = false) (hk : truthy r.api_key = true) :
    pollLoopSave false st cb expAt now k interval (PollEvent.resp d r :: rest) =
      (some (LoopExit.result (successResult r)),
       notifyActs cb ++ [Action.pollSent (now + interval * 1000) interval]) := by
  cases cb with
  | none =>
      rw [pollLoopSave.eq_def]
      simp [hnow, he, hk, notifyActs]
  | some f =>
      simp only [cbAt] at hcb
      rw [pollLoopSave.eq_def]
      simp [hnow, hcb, he, hk, notifyActs]

/-- Success with persistence on and a normally-returning store: the
credential is saved and the success result returned. -/
theorem pollLoopSave_success_ok_step (cb : Option (Nat → Option String))
    (expAt now k interval d : Nat) (r : DeviceTokenResponse)
    (rest : List PollEvent)
    (hnow : now < expAt) (hcb : cbAt cb k = none)
    (he : truthy r.error = false) (hk : truthy r.api_key = true) :
    pollLoopSave true none cb expAt now k interval (PollEvent.resp d r :: rest) =
      (some (LoopExit.result (successResult r)),
       notifyActs cb ++ Action.pollSent (now + interval * 1000) interval ::
         [Action.save (builtCredential r (now + interval * 1000 + d))]) := by
  cases cb with
  | none =>
      rw [pollLoopSave.eq_def]
      simp [hnow, he, hk, notifyActs]
  | some f =>
      simp only [cbAt] at hcb
      rw [pollLoopSave.eq_def]
      simp [hnow, hcb, he, hk, notifyActs]

/-- Success with persistence on and a throwing store: the store is invoked
(the save attempt is in the trace) and its error propagates out of the
loop in place of the success return of lines 120-127. -/
theorem pollLoopSave_success_throw_step (m : String)
    (cb : Option (Nat → Option String)) (expAt now k interval d : Nat)
    (r : DeviceTokenResponse) (rest : List PollEvent)
    (hnow : now < expAt) (hcb : cbAt cb k = none)
    (he : truthy r.error = false) (hk : truthy r.api_key = true) :
    pollLoopSave true (some m) cb expAt now k interval
        (PollEvent.resp d r :: rest) =
      (some (LoopExit.thrown m),
       notifyActs cb ++ Action.pollSent (now + interval * 1000) interval ::
         [Action.save (builtCredential r (now + interval * 1000 + d))]) := by
  cases cb with
  | none =>
      rw [pollLoopSave.eq_def]
      simp [hnow, he, hk, notifyActs]
  | some f =>
      simp only [cbAt] at hcb
      rw [pollLoopSave.eq_def]
      simp [hnow, hcb, he, hk, notifyActs]

/-- The fallible-store loop either runs exactly as the infallible one, or —
only when persistence is on and the store throws — exits with the store's
thrown error. -/
theorem pollLoopSave_vs_pollLoop (s : Bool) (st : Option String)
    (cb : Option (Nat → Option String)) (expAt : Nat) :
    ∀ (events : List PollEvent) (now k interval : Nat),
      pollLoopSave s st cb expAt now k interval events =
        pollLoop s cb expAt now k interval events ∨
      (∃ m tr, st = some m ∧ s = true ∧
        pollLoopSave s st cb expAt now k interval events =
          (some (LoopExit.thrown m), tr)) := by
  intro events
  induction events with
  | nil =>
      intro now k interval
      left
      by_cases hnow : now < expAt
      · rcases hc : cbAt cb k with _ | m
        · rw [pollLoopSave_nil_none s st cb expAt now k interval hnow hc,
            pollLoop_nil_none s cb expAt now k interval hnow hc]
        · rcases cb with _ | f
          · simp [cbAt] at hc
          · rw [pollLoopSave_cbThrow_step s st f expAt now k interval m []
              hnow (by simpa [cbAt] using hc),
              pollLoop_cbThrow_step s f expAt now k interval m []
              hnow (by simpa [cbAt] using hc)]
      · rw [pollLoopSave_deadline s st cb expAt now k interval []
            (Nat.not_lt.mp hnow),
          pollLoop_deadline s cb expAt now k interval [] (Nat.not_lt.mp hnow)]
  | cons e rest ih =>
      intro now k interval
      by_cases hnow : now < expAt
      · rcases hc : cbAt cb k with _ | m
        · cases e with
          | exn dl m2 =>
              left
              rw [pollLoopSave_exn_step s st cb expAt now k interval dl m2 rest
                  hnow hc,
                pollLoop_exn_step s cb expAt now k interval dl m2 rest hnow hc]
          | resp d r =>
              by_cases he : truthy r.error
              · obtain ⟨code, hre⟩ : ∃ c, r.error = some c := by
                  cases hm : r.error with
                  | none => rw [hm] at he; simp [truthy] at he
                  | some c => exact ⟨c, rfl⟩
                have hne : code ≠ "" := by
                  rw [hre] at he; simpa [truthy] using he
                by_cases hp1 : code = "authorization_pending"
                · subst hp1
                  rw [pollLoopSave_pending_step s st cb expAt now k interval
                      d r rest hnow hc hre,
                    pollLoop_pending_step s cb expAt now k interval d r rest
                      hnow hc hre]
                  rcases ih (now + interval * 1000 + d) (k + 1) interval with
                    hihe | ⟨m, tr, hst, hs, hthr⟩
                  · left; rw [hihe]
                  · right
                    refine ⟨m, notifyActs cb ++
                      Action.pollSent (now + interval * 1000) interval :: tr,
                      hst, hs, ?_⟩
                    rw [hthr]
                by_cases hp2 : code = "slow_down"
                · subst hp2
                  rw [pollLoopSave_slowdown_step s st cb expAt now k interval
                      d r rest hnow hc hre,
                    pollLoop_slowdown_step s cb expAt now k interval d r rest
                      hnow hc hre]
                  rcases ih (now + interval * 1000 + d) (k + 1) (interval + 5) with
                    hihe | ⟨m, tr, hst, hs, hthr⟩
                  · left; rw [hihe]
                  · right
                    refine ⟨m, notifyActs cb ++
                      Action.pollSent (now + interval * 1000) interval :: tr,
                      hst, hs, ?_⟩
                    rw [hthr]
                by_cases hp3 : code = "expired_token"
                · subst hp3
                  left
                  rw [pollLoopSave_expired_step s st cb expAt now k interval
                      d r rest hnow hc hre,
                    pollLoop_expired_step s cb expAt now k interval d r rest
                      hnow hc hre]
                by_cases hp4 : code = "access_denied"
                · subst hp4
                  left
                  rw [pollLoopSave_denied_step s st cb expAt now k interval
                      d r rest hnow hc hre,
                    pollLoop_denied_step s cb expAt now k interval d r rest
                      hnow hc hre]
                · left
                  rw [pollLoopSave_unknown_step s st cb expAt now k interval
                      d code r rest hnow hc hre hne hp1 hp2 hp3 hp4,
                    pollLoop_unknown_step s cb expAt now k interval d code r
                      rest hnow hc hre hne hp1 hp2 hp3 hp4]
              · have he2 : truthy r.error = false := Bool.not_eq_true _ ▸ he
                by_cases hk : truthy r.api_key
                · cases s with
                  | false =>
                      left
                      rw [pollLoopSave_success_nosave_step st cb expAt now k
                          interval d r rest hnow hc he2 hk,
                        pollLoop_success_step false cb expAt now k interval
                          d r rest hnow hc he2 hk]
                      simp
                  | true =>
                      rcases st with _ | m
                      · left
                        rw [pollLoopSave_success_ok_step cb expAt now k
                            interval d r rest hnow hc he2 hk,
                          pollLoop_success_step true cb expAt now k interval
                            d r rest hnow hc he2 hk]
                        simp
                      · right
                        exact ⟨m, notifyActs cb ++
                          Action.pollSent (now + interval * 1000) interval ::
                            [Action.save (builtCredential r
                              (now + interval * 1000 + d))],
                          rfl, rfl,
                          pollLoopSave_success_throw_step m cb expAt now k
                            interval d r rest hnow hc he2 hk⟩
                · have hk2 : truthy r.api_key = false := Bool.not_eq_true _ ▸ hk
                  rw [pollLoopSave_continue_step s st cb expAt now k interval
                      d r rest hnow hc he2 hk2,
                    pollLoop_continue_step s cb expAt now k interval d r rest
                      hnow hc he2 hk2]
                  rcases ih (now + interval * 1000 + d) (k + 1) interval with
                    hihe | ⟨m, tr, hst, hs, hthr⟩
                  · left; rw [hihe]
                  · right
                    refine ⟨m, notifyActs cb ++
                      Action.pollSent (now + interval * 1000) interval :: tr,
                      hst, hs, ?_⟩
                    rw [hthr]
        · rcases cb with _ | f
          · simp [cbAt] at hc
          · left
            rw [pollLoopSave_cbThrow_step s st f expAt now k interval m _
                hnow (by simpa [cbAt] using hc),
              pollLoop_cbThrow_step s f expAt now k interval m _
                hnow (by simpa [cbAt] using hc)]
      · left
        rw [pollLoopSave_deadline s st cb expAt now k interval _
            (Nat.not_lt.mp hnow),
          pollLoop_deadline s cb expAt now k interval _ (Nat.not_lt.mp hnow)]

/-- With a store that does not throw, the fallible-store loop IS
`pollLoop`: the base model is the `saveThrow := none` instance. -/
theorem pollLoopSave_none_eq (s : Bool) (cb : Option (Nat → Option String))
    (expAt : Nat) (events : List PollEvent) (now k interval : Nat) :
    pollLoopSave s none cb expAt now k interval events =
      pollLoop s cb expAt now k interval events := by
  rcases pollLoopSave_vs_pollLoop s none cb expAt events now k interval with
    h | ⟨m, tr, hst, -, -⟩
  · exact h
  · cases hst

/-- Caught `fetch` throw of the code request, on the fallible-store flow. -/
theorem executeDeviceFlowSave_netError (st : Option String)
    (options : DeviceFlowOptions) (m : String) (events : List PollEvent) :
    executeDeviceFlowSave st options (CodeRequestOutcome.netError m) events =
      (some (caughtResult m), [Action.codeRequest]) := rfl

/-- Caught non-ok code response, on the fallible-store flow. -/
theorem executeDeviceFlowSave_httpFail (st : Option String)
    (options : DeviceFlowOptions) (hr : HttpCodeResponse)
    (events : List PollEvent) (h : hr.ok = false) :
    executeDeviceFlowSave st options (CodeRequestOutcome.http hr) events =
      (some (caughtResult ("Failed to request device code: " ++ hr.text)),
       [Action.codeRequest]) := by
  simp [executeDeviceFlowSave, requestDeviceCode, h]

/-- Caught throwing `onCodeReceived`, on the fallible-store flow. -/
theorem executeDeviceFlowSave_ocrThrow (st : Option String)
    (options : DeviceFlowOptions) (hr : HttpCodeResponse)
    (events : List PollEvent) (m : String)
    (hok : hr.ok = true) (hm : options.onCodeReceived = some m) :
    executeDeviceFlowSave st options (CodeRequestOutcome.http hr) events =
      (some (caughtResult m),
       [Action.codeRequest,
        Action.codeReceived hr.json.user_code hr.json.verification_uri]) := by
  simp [executeDeviceFlowSave, requestDeviceCode, hok, hm]

/-- The fallible-store flow, unfolded to its polling loop. -/
theorem executeDeviceFlowSave_loop (st : Option String)
    (options : DeviceFlowOptions) (hr : HttpCodeResponse)
    (events : List PollEvent)
    (hok : hr.ok = true) (hocr : options.onCodeReceived = none) :
    executeDeviceFlowSave st options (CodeRequestOutcome.http hr) events =
      ((match (pollLoopSave (options.saveCredentials.getD true) st
          options.onPolling (hr.json.expires_in * 1000) 0 0
          hr.json.interval events).1 with
        | none => none
        | some (LoopExit.result r) => some r
        | some (LoopExit.thrown m) => some (caughtResult m)),
       Action.codeRequest ::
         Action.codeReceived hr.json.user_code hr.json.verification_uri ::
         (pollLoopSave (options.saveCredentials.getD true) st
           options.onPolling (hr.json.expires_in * 1000) 0 0
           hr.json.interval events).2) := by
  simp [executeDeviceFlowSave, requestDeviceCode, hok, hocr]
  rcases hp : (pollLoopSave (options.saveCredentials.getD true) st
      options.onPolling (hr.json.expires_in * 1000) 0 0
      hr.json.interval events).1 with _ | x
  · rfl
  · cases x <;> rfl

/-- With a store that does not throw, the fallible-store flow IS
`executeDeviceFlow`. -/
theorem executeDeviceFlowSave_none_eq (options : DeviceFlowOptions)
    (codeReq : CodeRequestOutcome) (events : List PollEvent) :
    executeDeviceFlowSave none options codeReq events =
      executeDeviceFlow options codeReq events := by
  rcases codeReq with hr | m
  · by_cases hok : hr.ok
    · rcases hm : options.onCodeReceived with _ | m0
      · rw [executeDeviceFlowSave_loop none options hr events hok hm,
          executeDeviceFlow_loop options hr events hok hm,
          pollLoopSave_none_eq]
      · rw [executeDeviceFlowSave_ocrThrow none options hr events m0 hok hm,
          executeDeviceFlow_ocrThrow options hr events m0 hok hm]
    · have hok2 : hr.ok = false := Bool.not_eq_true _ ▸ hok
      rw [executeDeviceFlowSave_httpFail none options hr events hok2,
        executeDeviceFlow_httpFail options hr events hok2]
  · rfl

/-! ## Claims -/

/-- C1: whenever the deadline (`expires_in` seconds after grant issuance)
elapses before any terminal server response, `executeDeviceFlow` returns
`{success := false, error := "Device code expired. Please try again."}`
(that is, `expiredResult`); the deadline is checked before each
wait-then-poll cycle, and once a cycle starts with the deadline reached or
passed the loop terminates in the expired result without issuing any
further poll (its continuation trace is empty). -/
theorem C1_deadline_expiry :
    (∀ (s : Bool) (cb : Option (Nat → Option String))
        (expAt now k interval : Nat) (events : List PollEvent), expAt ≤ now →
        pollLoop s cb expAt now k interval events =
          (some (LoopExit.result expiredResult), [])) ∧
    (∀ (options : DeviceFlowOptions) (hr : HttpCodeResponse)
        (events : List PollEvent) (res : DeviceAuthResult),
        hr.ok = true → options.onCodeReceived = none →
        cbSilent options.onPolling →
        (∀ e ∈ events, isNonTerminalEvent e = true) →
        (executeDeviceFlow options (CodeRequestOutcome.http hr) events).1 =
          some res →
        res = expiredResult) := by
  constructor
  · exact pollLoop_deadline
  · intro options hr events res hok hocr hcb hall h
    rw [executeDeviceFlow_loop options hr events hok hocr] at h
    rcases hp : (pollLoop (options.saveCredentials.getD true) options.onPolling
        (hr.json.expires_in * 1000) 0 0 hr.json.interval events).1 with _ | x
    · rw [hp] at h
      simp at h
    · have hx := pollLoop_nonterminal (options.saveCredentials.getD true)
        options.onPolling (hr.json.expires_in * 1000) hcb events 0 0
        hr.json.interval x hall hp
      subst hx
      rw [hp] at h
      simp at h
      exact h.symm

/-- Concrete instance of C1: the spec's expiry scenario
(`expires_in = 10`, `interval = 5`, only pending responses). -/
theorem C1_deadline_expiry_witness :
    pollLoop true none 1000 1000 0 5 [PollEvent.resp 0 pendingResp] =
      (some (LoopExit.result expiredResult), []) ∧
    expiredResult = expiredResult := by
  constructor
  · exact C1_deadline_expiry.1 true none 1000 1000 0 5
      [PollEvent.resp 0 pendingResp] (by decide)
  · exact C1_deadline_expiry.2 {}
      ⟨true, ⟨"d1", "u", "v", 10, 5⟩, ""⟩
      [PollEvent.resp 0 pendingResp, PollEvent.resp 0 pendingResp,
       PollEvent.resp 0 pendingResp, PollEvent.resp 0 pendingResp,
       PollEvent.resp 0 pendingResp]
      expiredResult rfl rfl trivial (by decide) (by decide)

/-- C2: a run whose responses are `authorization_pending` any number of
times followed by one authorized response with a populated `api_key`, every
cycle starting before the deadline, ends in success and returns exactly the
fields of the final response. -/
theorem C2_pending_then_authorized (options : DeviceFlowOptions)
    (hr : HttpCodeResponse) (pre : List PollEvent) (d : Nat)
    (r : DeviceTokenResponse)
    (hok : hr.ok = true) (hocr : options.onCodeReceived = none)
    (hcb : cbSilent options.onPolling)
    (hall : ∀ e ∈ pre, isPendingEvent e = true)
    (hchk : checksPass (hr.json.expires_in * 1000) 0 hr.json.interval
      (pre ++ [PollEvent.resp d r]) = true)
    (he : truthy r.error = false) (hk : truthy r.api_key = true) :
    (executeDeviceFlow options (CodeRequestOutcome.http hr)
        (pre ++ [PollEvent.resp d r])).1 =
      some { success := true, apiKey := r.api_key, keyPrefix := r.key_prefix,
             userId := r.user_id, email := r.email, provider := r.provider } := by
  rw [executeDeviceFlow_loop options hr _ hok hocr]
  rw [pollLoop_pending_then_success (options.saveCredentials.getD true)
    options.onPolling (hr.json.expires_in * 1000) hcb pre 0 0 hr.json.interval
    d r hall hchk he hk]
  rfl

/-- Concrete instance of C2: the spec's worked scenario
(`pending, pending, authorized`). -/
theorem C2_pending_then_authorized_witness :
    (executeDeviceFlow {} (CodeRequestOutcome.http ⟨true, sampleGrant, ""⟩)
        ([PollEvent.resp 0 pendingResp, PollEvent.resp 0 pendingResp] ++
          [PollEvent.resp 0 okResp])).1 =
      some { success := true, apiKey := some "sk_live_123", keyPrefix := none,
             userId := none, email := some "a@b.com",
             provider := some "github" } :=
  C2_pending_then_authorized {} ⟨true, sampleGrant, ""⟩
    [PollEvent.resp 0 pendingResp, PollEvent.resp 0 pendingResp] 0 okResp
    rfl rfl trivial (by decide) (by decide) (by decide) (by decide)

/-- C4: a poll response carrying a terminal error code ends the flow at once
after the single poll that received it, with the matching message:
`expired_token` yields the expired result, `access_denied` yields the
denied result regardless of remaining time budget, and any other
unrecognized code yields a failure carrying the raw code. -/
theorem C4_terminal_error_codes (s : Bool) (cb : Option (Nat → Option String))
    (expAt now k interval d : Nat) (r : DeviceTokenResponse)
    (rest : List PollEvent)
    (hnow : now < expAt) (hcb : cbAt cb k = none) :
    (r.error = some "expired_token" →
      pollLoop s cb expAt now k interval (PollEvent.resp d r :: rest) =
        (some (LoopExit.result expiredResult),
         notifyActs cb ++ [Action.pollSent (now + interval * 1000) interval])) ∧
    (r.error = some "access_denied" →
      pollLoop s cb expAt now k interval (PollEvent.resp d r :: rest) =
        (some (LoopExit.result deniedResult),
         notifyActs cb ++ [Action.pollSent (now + interval * 1000) interval])) ∧
    (∀ code, r.error = some code → code ≠ "" →
      code ≠ "authorization_pending" → code ≠ "slow_down" →
      code ≠ "expired_token" → code ≠ "access_denied" →
      pollLoop s cb expAt now k interval (PollEvent.resp d r :: rest) =
        (some (LoopExit.result (unknownResult code)),
         notifyActs cb ++ [Action.pollSent (now + interval * 1000) interval])) :=
  ⟨fun hre => pollLoop_expired_step s cb expAt now k interval d r rest hnow hcb hre,
   fun hre => pollLoop_denied_step s cb expAt now k interval d r rest hnow hcb hre,
   fun code hre h0 h1 h2 h3 h4 =>
     pollLoop_unknown_step s cb expAt now k interval d code r rest hnow hcb
       hre h0 h1 h2 h3 h4⟩

/-- Concrete instances of C4 for the three terminal codes. -/
theorem C4_terminal_error_codes_witness :
    pollLoop true none 600000 0 0 5 [PollEvent.resp 0 { error := some "expired_token" }] =
      (some (LoopExit.result expiredResult), [Action.pollSent 5000 5]) ∧
    pollLoop true none 600000 599999 0 5
        [PollEvent.resp 0 { error := some "access_denied" }] =
      (some (LoopExit.result deniedResult), [Action.pollSent 604999 5]) ∧
    pollLoop true none 600000 0 0 5 [PollEvent.resp 0 { error := some "server_error" }] =
      (some (LoopExit.result (unknownResult "server_error")), [Action.pollSent 5000 5]) := by
  refine ⟨?_, ?_, ?_⟩
  · have := (C4_terminal_error_codes true none 600000 0 0 5 0
      { error := some "expired_token" } [] (by decide) rfl).1 rfl
    simpa [notifyActs] using this
  · have := ((C4_terminal_error_codes true none 600000 599999 0 5 0
      { error := some "access_denied" } [] (by decide) rfl).2).1 rfl
    simpa [notifyActs] using this
  · have := ((C4_terminal_error_codes true none 600000 0 0 5 0
      { error := some "server_error" } [] (by decide) rfl).2).2 "server_error"
      rfl (by decide) (by decide) (by decide) (by decide) (by decide)
    simpa [notifyActs] using this

/-- C9: a non-2xx device-code response makes `requestDeviceCode` fail with
an error carrying the server's body verbatim; the flow maps it to a
terminal failure result, and the trace shows the single code request with
no retry and no poll. -/
theorem C9_code_request_failure :
    (∀ hr : HttpCodeResponse, hr.ok = false →
        requestDeviceCode hr =
          Except.error ("Failed to request device code: " ++ hr.text)) ∧
    (∀ (options : DeviceFlowOptions) (hr : HttpCodeResponse)
        (events : List PollEvent), hr.ok = false →
        executeDeviceFlow options (CodeRequestOutcome.http hr) events =
          (some (caughtResult ("Failed to request device code: " ++ hr.text)),
           [Action.codeRequest])) := by
  constructor
  · intro hr h
    simp [requestDeviceCode, h]
  · intro options hr events h
    exact executeDeviceFlow_httpFail options hr events h

/-- Concrete instance of C9. -/
theorem C9_code_request_failure_witness :
    requestDeviceCode ⟨false, sampleGrant, "boom"⟩ =
      Except.error ("Failed to request device code: " ++ "boom") ∧
    executeDeviceFlow {} (CodeRequestOutcome.http ⟨false, sampleGrant, "boom"⟩)
        [PollEvent.resp 0 okResp] =
      (some (caughtResult ("Failed to request device code: " ++ "boom")),
       [Action.codeRequest]) :=
  ⟨C9_code_request_failure.1 ⟨false, sampleGrant, "boom"⟩ rfl,
   C9_code_request_failure.2 {} ⟨false, sampleGrant, "boom"⟩
     [PollEvent.resp 0 okResp] rfl⟩

/-- C10: a poll response with neither a truthy `error` nor a truthy
`api_key` is non-terminal: the loop continues with the interval unchanged,
the next poll (if any) is issued after the same wait, and with no further
response the run is left undetermined rather than terminal. -/
theorem C10_empty_response_nonterminal (s : Bool)
    (cb : Option (Nat → Option String)) (expAt now k interval d : Nat)
    (r : DeviceTokenResponse) (rest : List PollEvent)
    (hnow : now < expAt) (hcb : cbAt cb k = none)
    (he : truthy r.error = false) (hk : truthy r.api_key = false) :
    pollLoop s cb expAt now k interval (PollEvent.resp d r :: rest) =
      ((pollLoop s cb expAt (now + interval * 1000 + d) (k + 1) interval rest).1,
       notifyActs cb ++ Action.pollSent (now + interval * 1000) interval ::
         (pollLoop s cb expAt (now + interval * 1000 + d) (k + 1) interval rest).2) ∧
    (∀ t, (pollTimes (pollLoop s cb expAt (now + interval * 1000 + d) (k + 1)
        interval rest).2).head? = some t →
        t = now + interval * 1000 + d + interval * 1000) ∧
    (∀ i2, (pollIntervals (pollLoop s cb expAt (now + interval * 1000 + d) (k + 1)
        interval rest).2).head? = some i2 → i2 = interval) ∧
    (cbSilent cb → now + interval * 1000 + d < expAt →
      (pollLoop s cb expAt (now + interval * 1000 + d) (k + 1) interval []).1 =
        none) := by
  refine ⟨pollLoop_continue_step s cb expAt now k interval d r rest hnow hcb he hk,
    fun t ht => pollLoop_first_pollTime s cb expAt _ _ _ rest t ht,
    fun i2 hi => pollLoop_first_pollInterval s cb expAt _ _ _ rest i2 hi,
    fun hsil h2 => ?_⟩
  rw [pollLoop_nil_none s cb expAt _ _ _ h2 (cbSilent_at cb (k + 1) hsil)]

/-- Concrete instance of C10: an empty-object response keeps the loop
going. -/
theorem C10_empty_response_nonterminal_witness :
    pollLoop true none 600000 0 0 5 [PollEvent.resp 0 {}, PollEvent.resp 0 okResp] =
      ((pollLoop true none 600000 5000 1 5 [PollEvent.resp 0 okResp]).1,
       Action.pollSent 5000 5 ::
         (pollLoop true none 600000 5000 1 5 [PollEvent.resp 0 okResp]).2) ∧
    (pollLoop true none 600000 5000 1 5 []).1 = none := by
  have h := C10_empty_response_nonterminal true none 600000 0 0 5 0 {}
    [PollEvent.resp 0 okResp] (by decide) rfl (by decide) (by decide)
  refine ⟨?_, h.2.2.2 trivial (by decide)⟩
  have h1 := h.1
  simpa [notifyActs] using h1

/-- C3: every `slow_down` response increases the polling interval by
exactly 5 seconds, the wait before the next poll uses the updated interval
(the next poll, if any, goes out one sleep of `interval + 5` after the
cycle starts and records `interval + 5` as its slept interval), and over
any whole flow the recorded interval sequence starts at the grant's
interval and never decreases. -/
theorem C3_slowdown_backoff :
    (∀ (s : Bool) (cb : Option (Nat → Option String))
        (expAt now k interval d : Nat) (r : DeviceTokenResponse)
        (rest : List PollEvent), now < expAt → cbAt cb k = none →
        r.error = some "slow_down" →
        pollLoop s cb expAt now k interval (PollEvent.resp d r :: rest) =
          ((pollLoop s cb expAt (now + interval * 1000 + d) (k + 1)
              (interval + 5) rest).1,
           notifyActs cb ++ Action.pollSent (now + interval * 1000) interval ::
             (pollLoop s cb expAt (now + interval * 1000 + d) (k + 1)
               (interval + 5) rest).2) ∧
        (∀ t, (pollTimes (pollLoop s cb expAt (now + interval * 1000 + d) (k + 1)
            (interval + 5) rest).2).head? = some t →
            t = now + interval * 1000 + d + (interval + 5) * 1000) ∧
        (∀ i2, (pollIntervals (pollLoop s cb expAt (now + interval * 1000 + d)
            (k + 1) (interval + 5) rest).2).head? = some i2 →
            i2 = interval + 5)) ∧
    (∀ (options : DeviceFlowOptions) (hr : HttpCodeResponse)
        (events : List PollEvent), hr.ok = true →
        List.Chain (· ≤ ·) hr.json.interval
          (pollIntervals (executeDeviceFlow options
            (CodeRequestOutcome.http hr) events).2)) := by
  constructor
  · intro s cb expAt now k interval d r rest hnow hcb hre
    exact ⟨pollLoop_slowdown_step s cb expAt now k interval d r rest hnow hcb hre,
      fun t ht => pollLoop_first_pollTime s cb expAt _ _ _ rest t ht,
      fun i2 hi => pollLoop_first_pollInterval s cb expAt _ _ _ rest i2 hi⟩
  · intro options hr events hok
    rcases hm : options.onCodeReceived with _ | m
    · rw [executeDeviceFlow_loop options hr events hok hm]
      simp only [pollIntervals]
      exact pollLoop_chain (options.saveCredentials.getD true) options.onPolling
        (hr.json.expires_in * 1000) events 0 0 hr.json.interval
    · rw [executeDeviceFlow_ocrThrow options hr events m hok hm]
      simp [pollIntervals]

/-- Concrete instance of C3: a `slow_down` at interval 5 makes the next
poll wait 10 seconds, and the whole run's interval trace is
non-decreasing from the grant's interval. -/
theorem C3_slowdown_backoff_witness :
    pollLoop true none 600000 0 0 5
        [PollEvent.resp 0 { error := some "slow_down" }, PollEvent.resp 0 okResp] =
      ((pollLoop true none 600000 5000 1 10 [PollEvent.resp 0 okResp]).1,
       Action.pollSent 5000 5 ::
         (pollLoop true none 600000 5000 1 10 [PollEvent.resp 0 okResp]).2) ∧
    List.Chain (· ≤ ·) 5
      (pollIntervals (executeDeviceFlow {}
        (CodeRequestOutcome.http ⟨true, sampleGrant, ""⟩)
        [PollEvent.resp 0 { error := some "slow_down" },
         PollEvent.resp 0 okResp]).2) := by
  constructor
  · have h := (C3_slowdown_backoff.1 true none 600000 0 0 5 0
      { error := some "slow_down" } [PollEvent.resp 0 okResp]
      (by decide) rfl rfl).1
    simpa [notifyActs] using h
  · exact C3_slowdown_backoff.2 {} ⟨true, sampleGrant, ""⟩
      [PollEvent.resp 0 { error := some "slow_down" }, PollEvent.resp 0 okResp] rfl

/-- C5: no exception escapes the orchestrator, for any behaviour of the
collaborators including a fallible credential store: a thrown code
request, a non-ok code response, a throwing `onCodeReceived`, any error
thrown during polling, and an error thrown by `saveCredentials` while
persisting (source line 117, inside the `try` block) are each caught at
the orchestrator boundary and mapped to
`{success := false, error := message}`; every result the flow can return
has `success = true` with no error field or `success = false` with a
populated error field, so callers branch only on `success`; and
`executeDeviceFlow` is exactly the `saveThrow := none` instance of this
fallible-store flow. -/
theorem C5_error_funnel :
    (∀ (st : Option String) (options : DeviceFlowOptions) (m : String)
        (events : List PollEvent),
        executeDeviceFlowSave st options (CodeRequestOutcome.netError m)
            events =
          (some (caughtResult m), [Action.codeRequest])) ∧
    (∀ (st : Option String) (options : DeviceFlowOptions)
        (hr : HttpCodeResponse) (events : List PollEvent), hr.ok = false →
        executeDeviceFlowSave st options (CodeRequestOutcome.http hr) events =
          (some (caughtResult ("Failed to request device code: " ++ hr.text)),
           [Action.codeRequest])) ∧
    (∀ (st : Option String) (options : DeviceFlowOptions)
        (hr : HttpCodeResponse) (events : List PollEvent) (m : String),
        hr.ok = true → options.onCodeReceived = some m →
        executeDeviceFlowSave st options (CodeRequestOutcome.http hr) events =
          (some (caughtResult m),
           [Action.codeRequest,
            Action.codeReceived hr.json.user_code hr.json.verification_uri])) ∧
    (∀ (st : Option String) (options : DeviceFlowOptions)
        (hr : HttpCodeResponse) (events : List PollEvent) (m : String)
        (tr : List Action),
        hr.ok = true → options.onCodeReceived = none →
        pollLoopSave (options.saveCredentials.getD true) st options.onPolling
            (hr.json.expires_in * 1000) 0 0 hr.json.interval events =
          (some (LoopExit.thrown m), tr) →
        (executeDeviceFlowSave st options (CodeRequestOutcome.http hr)
            events).1 = some (caughtResult m)) ∧
    (∀ (m : String) (cb : Option (Nat → Option String))
        (expAt now k interval d : Nat) (r : DeviceTokenResponse)
        (rest : List PollEvent),
        now < expAt → cbAt cb k = none →
        truthy r.error = false → truthy r.api_key = true →
        pollLoopSave true (some m) cb expAt now k interval
            (PollEvent.resp d r :: rest) =
          (some (LoopExit.thrown m),
           notifyActs cb ++
             Action.pollSent (now + interval * 1000) interval ::
             [Action.save (builtCredential r (now + interval * 1000 + d))])) ∧
    (∀ (st : Option String) (options : DeviceFlowOptions)
        (codeReq : CodeRequestOutcome) (events : List PollEvent)
        (res : DeviceAuthResult),
        (executeDeviceFlowSave st options codeReq events).1 = some res →
        (res.success = true ∧ res.error = none) ∨
        (res.success = false ∧ res.error ≠ none)) ∧
    (∀ (options : DeviceFlowOptions) (codeReq : CodeRequestOutcome)
        (events : List PollEvent),
        executeDeviceFlowSave none options codeReq events =
          executeDeviceFlow options codeReq events) := by
  refine ⟨fun st options m events =>
      executeDeviceFlowSave_netError st options m events,
    fun st options hr events h =>
      executeDeviceFlowSave_httpFail st options hr events h,
    fun st options hr events m hok hm =>
      executeDeviceFlowSave_ocrThrow st options hr events m hok hm,
    ?_, ?_, ?_,
    fun options codeReq events =>
      executeDeviceFlowSave_none_eq options codeReq events⟩
  · intro st options hr events m tr hok hocr hloop
    rw [executeDeviceFlowSave_loop st options hr events hok hocr, hloop]
  · intro m cb expAt now k interval d r rest hnow hcb he hk
    exact pollLoopSave_success_throw_step m cb expAt now k interval d r rest
      hnow hcb he hk
  · intro st options codeReq events res h
    rcases codeReq with hr | m
    · by_cases hok : hr.ok
      · rcases hm : options.onCodeReceived with _ | m0
        · rw [executeDeviceFlowSave_loop st options hr events hok hm] at h
          rcases pollLoopSave_vs_pollLoop (options.saveCredentials.getD true)
              st options.onPolling (hr.json.expires_in * 1000) events 0 0
              hr.json.interval with heq | ⟨m1, tr, -, -, hthr⟩
          · rw [heq] at h
            rcases hp : (pollLoop (options.saveCredentials.getD true)
                options.onPolling (hr.json.expires_in * 1000) 0 0
                hr.json.interval events).1 with _ | x
            · rw [hp] at h
              simp at h
            · rw [hp] at h
              cases x with
              | result r0 =>
                  simp only [Option.some.injEq] at h
                  subst h
                  exact pollLoop_result_shape
                    (options.saveCredentials.getD true) options.onPolling
                    (hr.json.expires_in * 1000) events 0 0
                    hr.json.interval _ hp
              | thrown m0 =>
                  simp only [Option.some.injEq] at h
                  subst h
                  exact Or.inr ⟨rfl, by simp [caughtResult]⟩
          · rw [hthr] at h
            simp at h
            subst h
            exact Or.inr ⟨rfl, by simp [caughtResult]⟩
        · rw [executeDeviceFlowSave_ocrThrow st options hr events m0 hok hm] at h
          simp only [Option.some.injEq] at h
          subst h
          exact Or.inr ⟨rfl, by simp [caughtResult]⟩
      · have hok2 : hr.ok = false := Bool.not_eq_true _ ▸ hok
        rw [executeDeviceFlowSave_httpFail st options hr events hok2] at h
        simp only [Option.some.injEq] at h
        subst h
        exact Or.inr ⟨rfl, by simp [caughtResult]⟩
    · rw [executeDeviceFlowSave_netError st options m events] at h
      simp only [Option.some.injEq] at h
      subst h
      exact Or.inr ⟨rfl, by simp [caughtResult]⟩

/-- Concrete instance of C5: a thrown code request, a transport failure
during polling, and a credential store that throws while persisting an
otherwise successful flow — each caught and returned as a failure result;
and the base flow is the store-does-not-throw instance. -/
theorem C5_error_funnel_witness :
    executeDeviceFlowSave (some "EACCES: permission denied") {}
        (CodeRequestOutcome.netError "connect ECONNREFUSED") [] =
      (some (caughtResult "connect ECONNREFUSED"), [Action.codeRequest]) ∧
    (executeDeviceFlowSave none {}
        (CodeRequestOutcome.http ⟨true, sampleGrant, ""⟩)
        [PollEvent.exn 0 "Failed to poll for token: 500"]).1 =
      some (caughtResult "Failed to poll for token: 500") ∧
    (executeDeviceFlowSave (some "EACCES: permission denied") {}
        (CodeRequestOutcome.http ⟨true, sampleGrant, ""⟩)
        [PollEvent.resp 0 okResp]).1 =
      some (caughtResult "EACCES: permission denied") ∧
    executeDeviceFlowSave none {}
        (CodeRequestOutcome.http ⟨true, sampleGrant, ""⟩)
        [PollEvent.resp 0 okResp] =
      executeDeviceFlow {} (CodeRequestOutcome.http ⟨true, sampleGrant, ""⟩)
        [PollEvent.resp 0 okResp] := by
  refine ⟨C5_error_funnel.1 (some "EACCES: permission denied") {}
      "connect ECONNREFUSED" [], ?_, ?_, ?_⟩
  · exact C5_error_funnel.2.2.2.1 none {} ⟨true, sampleGrant, ""⟩
      [PollEvent.exn 0 "Failed to poll for token: 500"]
      "Failed to poll for token: 500" [Action.pollSent 5000 5] rfl rfl
      (by decide)
  · exact C5_error_funnel.2.2.2.1 (some "EACCES: permission denied") {}
      ⟨true, sampleGrant, ""⟩ [PollEvent.resp 0 okResp]
      "EACCES: permission denied"
      [Action.pollSent 5000 5, Action.save (builtCredential okResp 5000)]
      rfl rfl (by decide)
  · exact C5_error_funnel.2.2.2.2.2.2 {}
      (CodeRequestOutcome.http ⟨true, sampleGrant, ""⟩)
      [PollEvent.resp 0 okResp]

/-- C6: with the save option off the credential store is never touched;
with it on (the default), at most one save happens per flow, only on a
successful outcome, and the saved credential carries the final response's
fields with `createdAt` stamped with the clock value of that moment. -/
theorem C6_persistence :
    (∀ (options : DeviceFlowOptions) (codeReq : CodeRequestOutcome)
        (events : List PollEvent), options.saveCredentials = some false →
        savesOf (executeDeviceFlow options codeReq events).2 = []) ∧
    (∀ (options : DeviceFlowOptions) (codeReq : CodeRequestOutcome)
        (events : List PollEvent),
        (savesOf (executeDeviceFlow options codeReq events).2).length ≤ 1) ∧
    (∀ (options : DeviceFlowOptions) (codeReq : CodeRequestOutcome)
        (events : List PollEvent) (res : DeviceAuthResult),
        (executeDeviceFlow options codeReq events).1 = some res →
        res.success = false →
        savesOf (executeDeviceFlow options codeReq events).2 = []) ∧
    (∀ (cb : Option (Nat → Option String)) (expAt now k interval d : Nat)
        (r : DeviceTokenResponse) (rest : List PollEvent),
        now < expAt → cbAt cb k = none →
        truthy r.error = false → truthy r.api_key = true →
        savesOf (pollLoop true cb expAt now k interval
            (PollEvent.resp d r :: rest)).2 =
          [builtCredential r (now + interval * 1000 + d)] ∧
        savesOf (pollLoop false cb expAt now k interval
            (PollEvent.resp d r :: rest)).2 = []) := by
  refine ⟨?_, ?_, ?_, ?_⟩
  · intro options codeReq events hsv
    rcases codeReq with hr | m
    · by_cases hok : hr.ok
      · rcases hm : options.onCodeReceived with _ | m0
        · rw [executeDeviceFlow_loop options hr events hok hm, hsv]
          simp only [Option.getD_some, savesOf]
          exact pollLoop_saves_none options.onPolling (hr.json.expires_in * 1000)
            events 0 0 hr.json.interval
        · rw [executeDeviceFlow_ocrThrow options hr events m0 hok hm]
          simp [savesOf]
      · have hok2 : hr.ok = false := Bool.not_eq_true _ ▸ hok
        rw [executeDeviceFlow_httpFail options hr events hok2]
        simp [savesOf]
    · rw [executeDeviceFlow_netError options m events]
      simp [savesOf]
  · intro options codeReq events
    rcases codeReq with hr | m
    · by_cases hok : hr.ok
      · rcases hm : options.onCodeReceived with _ | m0
        · rw [executeDeviceFlow_loop options hr events hok hm]
          simp only [savesOf]
          exact (pollLoop_saves_result (options.saveCredentials.getD true)
            options.onPolling (hr.json.expires_in * 1000) events 0 0
            hr.json.interval).1
        · rw [executeDeviceFlow_ocrThrow options hr events m0 hok hm]
          simp [savesOf]
      · have hok2 : hr.ok = false := Bool.not_eq_true _ ▸ hok
        rw [executeDeviceFlow_httpFail options hr events hok2]
        simp [savesOf]
    · rw [executeDeviceFlow_netError options m events]
      simp [savesOf]
  · intro options codeReq events res h hfalse
    rcases codeReq with hr | m
    · by_cases hok : hr.ok
      · rcases hm : options.onCodeReceived with _ | m0
        · rw [executeDeviceFlow_loop options hr events hok hm] at h
          rw [executeDeviceFlow_loop options hr events hok hm]
          by_cases hs : savesOf (pollLoop (options.saveCredentials.getD true)
              options.onPolling (hr.json.expires_in * 1000) 0 0
              hr.json.interval events).2 = []
          · simpa [savesOf] using hs
          · obtain ⟨res2, hres2, hsucc⟩ :=
              (pollLoop_saves_result (options.saveCredentials.getD true)
                options.onPolling (hr.json.expires_in * 1000) events 0 0
                hr.json.interval).2 hs
            rw [hres2] at h
            simp only [Option.some.injEq] at h
            subst h
            simp [hsucc] at hfalse
        · rw [executeDeviceFlow_ocrThrow options hr events m0 hok hm]
          simp [savesOf]
      · have hok2 : hr.ok = false := Bool.not_eq_true _ ▸ hok
        rw [executeDeviceFlow_httpFail options hr events hok2]
        simp [savesOf]
    · rw [executeDeviceFlow_netError options m events]
      simp [savesOf]
  · intro cb expAt now k interval d r rest hnow hcb he hk
    constructor
    · rw [pollLoop_success_step true cb expAt now k interval d r rest hnow hcb he hk]
      simp [savesOf_append, savesOf_notify, savesOf]
    · rw [pollLoop_success_step false cb expAt now k interval d r rest hnow hcb he hk]
      simp [savesOf_append, savesOf_notify, savesOf]

/-- Concrete instance of C6: with saving off no save happens; with the
default options a successful flow saves once, stamped at 5000 ms. -/
theorem C6_persistence_witness :
    savesOf (executeDeviceFlow ⟨none, none, some false⟩
        (CodeRequestOutcome.http ⟨true, sampleGrant, ""⟩)
        [PollEvent.resp 0 okResp]).2 = [] ∧
    (savesOf (executeDeviceFlow {} (CodeRequestOutcome.http ⟨true, sampleGrant, ""⟩)
        [PollEvent.resp 0 okResp]).2).length ≤ 1 ∧
    savesOf (pollLoop true none 600000 0 0 5 [PollEvent.resp 0 okResp]).2 =
      [builtCredential okResp 5000] ∧
    savesOf (pollLoop false none 600000 0 0 5 [PollEvent.resp 0 okResp]).2 = [] := by
  refine ⟨C6_persistence.1 ⟨none, none, some false⟩ _ _ rfl,
    C6_persistence.2.1 {} _ _, ?_, ?_⟩
  · exact (C6_persistence.2.2.2 none 600000 0 0 5 0 okResp [] (by decide) rfl
      (by decide) (by decide)).1
  · exact (C6_persistence.2.2.2 none 600000 0 0 5 0 okResp [] (by decide) rfl
      (by decide) (by decide)).2

/-- C7: after a successful code request, `onCodeReceived` runs exactly once
with the grant's user code and verification URI, before any poll;
`onPolling`, when supplied, runs immediately before every poll including
the first; and the first poll goes out exactly one sleep of the grant's
interval after issuance, never immediately. -/
theorem C7_callback_discipline :
    (∀ (options : DeviceFlowOptions) (hr : HttpCodeResponse)
        (events : List PollEvent), hr.ok = true →
        options.onCodeReceived = none →
        ∃ tr, (executeDeviceFlow options (CodeRequestOutcome.http hr) events).2 =
            Action.codeRequest ::
              Action.codeReceived hr.json.user_code hr.json.verification_uri ::
              tr ∧
          codeReceivedCount tr = 0) ∧
    (∀ (options : DeviceFlowOptions) (hr : HttpCodeResponse)
        (events : List PollEvent) (f : Nat → Option String), hr.ok = true →
        options.onCodeReceived = none → options.onPolling = some f →
        pollsPreceded (executeDeviceFlow options
          (CodeRequestOutcome.http hr) events).2 = true) ∧
    (∀ (options : DeviceFlowOptions) (hr : HttpCodeResponse)
        (events : List PollEvent) (t : Nat), hr.ok = true →
        options.onCodeReceived = none →
        (pollTimes (executeDeviceFlow options
          (CodeRequestOutcome.http hr) events).2).head? = some t →
        t = hr.json.interval * 1000) := by
  refine ⟨?_, ?_, ?_⟩
  · intro options hr events hok hocr
    rw [executeDeviceFlow_loop options hr events hok hocr]
    exact ⟨_, rfl, (pollLoop_no_code (options.saveCredentials.getD true)
      options.onPolling (hr.json.expires_in * 1000) events 0 0
      hr.json.interval).1⟩
  · intro options hr events f hok hocr hf
    rw [executeDeviceFlow_loop options hr events hok hocr, hf]
    simp only [pollsPreceded]
    exact pollLoop_preceded (options.saveCredentials.getD true) f
      (hr.json.expires_in * 1000) events 0 0 hr.json.interval
  · intro options hr events t hok hocr ht
    rw [executeDeviceFlow_loop options hr events hok hocr] at ht
    simp only [pollTimes] at ht
    have := pollLoop_first_pollTime (options.saveCredentials.getD true)
      options.onPolling (hr.json.expires_in * 1000) 0 0 hr.json.interval
      events t ht
    omega

/-- Concrete instance of C7 on the spec's worked scenario. -/
theorem C7_callback_discipline_witness :
    (∃ tr, (executeDeviceFlow {} (CodeRequestOutcome.http ⟨true, sampleGrant, ""⟩)
        [PollEvent.resp 0 okResp]).2 =
        Action.codeRequest ::
          Action.codeReceived "ABCD-1234" "https://x/verify" :: tr ∧
        codeReceivedCount tr = 0) ∧
    pollsPreceded (executeDeviceFlow ⟨none, some (fun _ => none), none⟩
        (CodeRequestOutcome.http ⟨true, sampleGrant, ""⟩)
        [PollEvent.resp 0 pendingResp, PollEvent.resp 0 okResp]).2 = true ∧
    (5000 : Nat) = sampleGrant.interval * 1000 := by
  refine ⟨?_, ?_, ?_⟩
  · exact C7_callback_discipline.1 {} ⟨true, sampleGrant, ""⟩
      [PollEvent.resp 0 okResp] rfl rfl
  · exact C7_callback_discipline.2.1 ⟨none, some (fun _ => none), none⟩
      ⟨true, sampleGrant, ""⟩
      [PollEvent.resp 0 pendingResp, PollEvent.resp 0 okResp]
      (fun _ => none) rfl rfl rfl
  · exact C7_callback_discipline.2.2 {} ⟨true, sampleGrant, ""⟩
      [PollEvent.resp 0 okResp] 5000 rfl rfl (by decide)

/-- C8 fails as stated: the `onPolling` callback can alter the terminal
result by throwing — its error is caught at the orchestrator boundary and
becomes the flow's failure result, so two callbacks that differ in throw
behaviour give different results on the same poll responses. -/
theorem C8_callback_interference_counterexample :
    (executeDeviceFlow ⟨none, some (fun _ => none), none⟩
        (CodeRequestOutcome.http ⟨true, sampleGrant, ""⟩)
        [PollEvent.resp 0 okResp]).1 ≠
      (executeDeviceFlow ⟨none, some (fun _ => some "boom"), none⟩
        (CodeRequestOutcome.http ⟨true, sampleGrant, ""⟩)
        [PollEvent.resp 0 okResp]).1 := by
  decide

/-- C8 (amended): for any two `onPolling` callbacks that never throw,
`executeDeviceFlow` makes the same polling decisions and returns the same
result and the same trace — the callback's return value is never consulted.
A callback that does throw aborts the flow, whose error is still caught at
the orchestrator boundary and returned as a failure result rather than
escaping. -/
theorem C8_onPolling_noninterference (ocr : Option String) (sv : Option Bool)
    (codeReq : CodeRequestOutcome) (events : List PollEvent)
    (f1 f2 : Nat → Option String)
    (h1 : ∀ j, f1 j = none) (h2 : ∀ j, f2 j = none) :
    executeDeviceFlow ⟨ocr, some f1, sv⟩ codeReq events =
      executeDeviceFlow ⟨ocr, some f2, sv⟩ codeReq events := by
  rcases codeReq with hr | m
  · by_cases hok : hr.ok
    · rcases ocr with _ | m0
      · rw [executeDeviceFlow_loop ⟨none, some f1, sv⟩ hr events hok rfl,
          executeDeviceFlow_loop ⟨none, some f2, sv⟩ hr events hok rfl]
        have hcore := pollLoop_cb_irrelevant (sv.getD true)
          (hr.json.expires_in * 1000) f1 f2 h1 h2 events 0 0 hr.json.interval
        simp only [hcore]
      · rw [executeDeviceFlow_ocrThrow ⟨some m0, some f1, sv⟩ hr events m0 hok rfl,
          executeDeviceFlow_ocrThrow ⟨some m0, some f2, sv⟩ hr events m0 hok rfl]
    · have hok2 : hr.ok = false := Bool.not_eq_true _ ▸ hok
      rw [executeDeviceFlow_httpFail ⟨ocr, some f1, sv⟩ hr events hok2,
        executeDeviceFlow_httpFail ⟨ocr, some f2, sv⟩ hr events hok2]
  · rw [executeDeviceFlow_netError ⟨ocr, some f1, sv⟩ m events,
      executeDeviceFlow_netError ⟨ocr, some f2, sv⟩ m events]

/-- Concrete instance of the amended C8: two different never-throwing
callbacks give identical runs. -/
theorem C8_onPolling_noninterference_witness :
    executeDeviceFlow ⟨none, some (fun _ => none), none⟩
        (CodeRequestOutcome.http ⟨true, sampleGrant, ""⟩)
        [PollEvent.resp 0 okResp] =
      executeDeviceFlow
        ⟨none, some (fun j => if j < 0 then some "x" else none), none⟩
        (CodeRequestOutcome.http ⟨true, sampleGrant, ""⟩)
        [PollEvent.resp 0 okResp] :=
  C8_onPolling_noninterference none none
    (CodeRequestOutcome.http ⟨true, sampleGrant, ""⟩) [PollEvent.resp 0 okResp]
    (fun _ => none) (fun j => if j < 0 then some "x" else none)
    (fun _ => rfl) (fun j => by simp)

end DeviceFlow
